import Mathlib

/-!
RealSense-OpenCV: depth-guided background removal.

A shallow embedding of the pixel loops of `align-depth-color.cpp`
(`remove_background`, `highlight_closest`, `find_stream_to_align`) and of the
mask handling in the frame loop of `remove_background.cpp`.

Conventions of the embedding
* A frame buffer is a `List Nat`; a colour byte is a `Nat`, a depth value is a
  `Nat` below `65536` (`uint16_t`).  A store outside the buffer leaves the list
  unchanged, a load outside the buffer reads `0`; the theorems about frames
  carry the buffer sizes `width * height` and `width * height * bpp`.
* The OpenMP loops are executed sequentially, rows in increasing order.
* A finite `float` is the rational it denotes: `depth_scale` and `clipping_dist` range over
  the rationals, and the product the code forms in `float` is the exact product rounded to
  the nearest binary32 value, ties to even (`f32_mul`).  A rounded value of magnitude `2^128`
  or more stands for an infinity; it compares with every finite `float` as the infinity does.
  The conversion of a 16-bit depth value to `float` is exact.  Arguments that are infinite or
  not a number are outside the model.
* `int` loop variables and offsets are unbounded naturals (the frames of the
  camera are far below `2^31` bytes); the `uint16_t` histogram counters wrap
  modulo `2^16` as declared.
-/

namespace RealSenseOpenCV

/-! ## Frame loops -/

/-- The row/column loop shared by the three pixel passes:
`for y < height { idx = y * width; for x < width (x++, ++idx) body }`.
The body receives `y`, `x` and the running pixel index. -/
def forEachPixel {σ : Type} (width height : Nat) (body : Nat → Nat → Nat → σ → σ) (s : σ) : σ :=
  (List.range height).foldl
    (fun s y => (List.range width).foldl (fun s x => body y x (y * width + x) s) s) s

/-- The call `std::memset(&buf[offset], value, n)`. -/
def memset : List Nat → Nat → Nat → Nat → List Nat
  | buf, _, _, 0 => buf
  | buf, offset, value, n + 1 => memset (buf.set offset value) (offset + 1) value n

/-- Rounding of a rational to the nearest integer, a tie going to the even neighbour. -/
def roundHalfEven (x : ℚ) : ℤ :=
  if x - (⌊x⌋ : ℚ) < 1 / 2 then ⌊x⌋
  else if x - (⌊x⌋ : ℚ) > 1 / 2 then ⌊x⌋ + 1
  else if ⌊x⌋ % 2 = 0 then ⌊x⌋ else ⌊x⌋ + 1

/-- IEEE 754 binary32 rounding of an exact value (round to nearest, ties to even): the value
is rounded to a multiple of `2 ^ (e - 23)`, where `e` is the binary exponent of the value and
at least `-126` (the subnormal range). -/
def f32_round (q : ℚ) : ℚ :=
  if q = 0 then 0
  else
    (roundHalfEven (q / (2 : ℚ) ^ (max (Int.log 2 |q|) (-126) - 23)) : ℚ) *
      (2 : ℚ) ^ (max (Int.log 2 |q|) (-126) - 23)

/-- The `float` product `a * b`. -/
def f32_mul (a b : ℚ) : ℚ := f32_round (a * b)

/-- The test `pixels_distance <= 0.f || pixels_distance > clipping_dist` on the
depth value `d`, with `pixels_distance = depth_scale * d` computed in `float`. -/
def isBackground (depth_scale clipping_dist : ℚ) (d : Nat) : Prop :=
  f32_mul depth_scale (d : ℚ) ≤ 0 ∨ f32_mul depth_scale (d : ℚ) > clipping_dist

instance (depth_scale clipping_dist : ℚ) (d : Nat) :
    Decidable (isBackground depth_scale clipping_dist d) := by
  unfold isBackground; infer_instance

/-- The function `remove_background`: every pixel whose distance is invalid or beyond the
clipping distance is overwritten with `0x99` in all of its `other_bpp` bytes. -/
def remove_background (other_frame depth_frame : List Nat) (width height other_bpp : Nat)
    (depth_scale clipping_dist : ℚ) : List Nat :=
  forEachPixel width height
    (fun _ _ depth_pixel_index buf =>
      if isBackground depth_scale clipping_dist (depth_frame.getD depth_pixel_index 0) then
        memset buf (depth_pixel_index * other_bpp) 0x99 other_bpp
      else buf)
    other_frame

/-- Invariant of a painting pass after `n` pixels: the bytes `i * bpp .. i * bpp + m - 1` of
every selected pixel `i < n` hold `v`, every other byte is the one of the input buffer. -/
def PaintInv (sel : Nat → Prop) (bpp m v : Nat) (input : List Nat) (n : Nat) (buf : List Nat) : Prop :=
  buf.length = input.length ∧
  ∀ j, ((∃ i, i < n ∧ sel i ∧ i * bpp ≤ j ∧ j < i * bpp + m) → j < input.length → buf[j]? = some v) ∧
    ((¬ ∃ i, i < n ∧ sel i ∧ i * bpp ≤ j ∧ j < i * bpp + m) → buf[j]? = input[j]?)

/-! ## `highlight_closest` -/

/-- The constant `slotSizeFactor` of `highlight_closest`. -/
def slotSizeFactor : Nat := 5

/-- The constant `noOfSlots = 65536 >> slotSizeFactor` of `highlight_closest`. -/
def noOfSlots : Nat := 65536 >>> slotSizeFactor

/-- The test `pixels_distance * depth_scale <= 0.f || pixels_distance * depth_scale > clipping_dist`
of the counting pass, the product computed in `float`. -/
def isInvalid (depth_scale clipping_dist : ℚ) (pixels_distance : Nat) : Prop :=
  f32_mul (pixels_distance : ℚ) depth_scale ≤ 0 ∨
    f32_mul (pixels_distance : ℚ) depth_scale > clipping_dist

instance (depth_scale clipping_dist : ℚ) (d : Nat) :
    Decidable (isInvalid depth_scale clipping_dist d) := by
  unfold isInvalid; infer_instance

/-- The statement `slot_counts[slot]++` on `uint16_t` counters. -/
def incrementSlot (slot_counts : List Nat) (slot : Nat) : List Nat :=
  slot_counts.set slot ((slot_counts.getD slot 0 + 1) % 65536)

/-- First pass of `highlight_closest`: the counters are cleared, then every pixel with a
valid distance increments the counter of its slot `pixels_distance >> slotSizeFactor`. -/
def countDepthPixels (depth_frame : List Nat) (width height : Nat)
    (depth_scale clipping_dist : ℚ) : List Nat :=
  forEachPixel width height
    (fun _ _ depth_pixel_index slot_counts =>
      let pixels_distance := depth_frame.getD depth_pixel_index 0
      if isInvalid depth_scale clipping_dist pixels_distance then slot_counts
      else incrementSlot slot_counts (pixels_distance >>> slotSizeFactor))
    (List.replicate noOfSlots 0)

/-- Second pass of `highlight_closest`: the scan for the fullest slot.  The result is
`(max_count, max_pos)`. -/
def findMaxSlot (slot_counts : List Nat) : Nat × Nat :=
  (List.range noOfSlots).foldl
    (fun (acc : Nat × Nat) i =>
      if slot_counts.getD i 0 > acc.1 then (slot_counts.getD i 0, i) else acc)
    (0, 0)

/-- Third pass of `highlight_closest`: a pixel of the band `max_pos` adds its coordinates
to the `uint32_t` sums `x_total`, `y_total`; any other pixel gets its first three bytes
cleared.  The state is `(other_frame, x_total, y_total)`. -/
def maskOtherPixels (other_frame depth_frame : List Nat) (width height other_bpp max_pos : Nat) :
    List Nat × Nat × Nat :=
  forEachPixel width height
    (fun y x depth_pixel_index (st : List Nat × Nat × Nat) =>
      let pixels_distance := depth_frame.getD depth_pixel_index 0
      let offset := depth_pixel_index * other_bpp
      if pixels_distance >>> slotSizeFactor = max_pos then
        (st.1, (st.2.1 + x) % 4294967296, (st.2.2 + y) % 4294967296)
      else
        (((st.1.set offset 0).set (offset + 1) 0).set (offset + 2) 0, st.2.1, st.2.2))
    (other_frame, 0, 0)

/-- The two buffers `highlight_closest` holds pointers to. -/
structure FramePair where
  depth_frame : List Nat
  other_frame : List Nat

/-- The function `highlight_closest`: count, select the band, mask.  The depth buffer is only read. -/
def highlight_closest (frames : FramePair) (width height other_bpp : Nat)
    (depth_scale clipping_dist : ℚ) : FramePair :=
  let slot_counts := countDepthPixels frames.depth_frame width height depth_scale clipping_dist
  let max_pos := (findMaxSlot slot_counts).2
  { depth_frame := frames.depth_frame
    other_frame :=
      (maskOtherPixels frames.other_frame frames.depth_frame width height other_bpp max_pos).1 }

/-! ## Stream selection -/

/-- The enumeration `rs2_stream` of librealsense (`rs_sensor.h`). -/
inductive rs2_stream where
  | RS2_STREAM_ANY
  | RS2_STREAM_DEPTH
  | RS2_STREAM_COLOR
  | RS2_STREAM_INFRARED
  | RS2_STREAM_FISHEYE
  | RS2_STREAM_GYRO
  | RS2_STREAM_ACCEL
  | RS2_STREAM_GPIO
  | RS2_STREAM_POSE
  | RS2_STREAM_CONFIDENCE
  deriving DecidableEq, Repr

/-- What the code reads of an `rs2::stream_profile`. -/
structure stream_profile where
  stream_type : rs2_stream
  unique_id : Int
  deriving DecidableEq, Repr

/-- The locals `align_to`, `depth_stream_found`, `color_stream_found` of `find_stream_to_align`. -/
structure AlignSearch where
  align_to : rs2_stream
  depth_stream_found : Bool
  color_stream_found : Bool
  deriving DecidableEq, Repr

/-- One iteration of the loop over the streams in `find_stream_to_align`. -/
def alignSearchStep (st : AlignSearch) (sp : stream_profile) : AlignSearch :=
  let profile_stream := sp.stream_type
  if profile_stream ≠ rs2_stream.RS2_STREAM_DEPTH then
    let st1 := if !st.color_stream_found then { st with align_to := profile_stream } else st
    if profile_stream = rs2_stream.RS2_STREAM_COLOR then { st1 with color_stream_found := true }
    else st1
  else { st with depth_stream_found := true }

/-- The function `find_stream_to_align`; a thrown `std::runtime_error` is `Except.error` with its message. -/
def find_stream_to_align (streams : List stream_profile) : Except String rs2_stream :=
  let st := streams.foldl alignSearchStep
    { align_to := rs2_stream.RS2_STREAM_ANY, depth_stream_found := false,
      color_stream_found := false }
  if !st.depth_stream_found then
    Except.error "No Depth stream available"
  else if st.align_to = rs2_stream.RS2_STREAM_ANY then
    Except.error "No stream found to align with Depth"
  else
    Except.ok st.align_to

/-- The type of the last stream of the list that is not a depth stream, if there is one. -/
def lastNonDepth (streams : List stream_profile) : Option rs2_stream :=
  ((streams.map (fun sp => sp.stream_type)).filter
    (fun t => decide (t ≠ rs2_stream.RS2_STREAM_DEPTH))).getLast?

/-! ## Seed mask and compositing (`remove_background.cpp`) -/

/-- An OpenCV matrix: its dimensions and its elements in row-major order. -/
structure Mat (α : Type) where
  rows : Nat
  cols : Nat
  data : List α

/-- The GrabCut classes of OpenCV (`cv::GrabCutClasses`). -/
def GC_BGD : Nat := 0

/-- Definite foreground. -/
def GC_FGD : Nat := 1

/-- Probable background. -/
def GC_PR_BGD : Nat := 2

/-- Probable foreground. -/
def GC_PR_FGD : Nat := 3

/-- A BGR pixel of a `Mat3b`. -/
abbrev Vec3b : Type := Nat × Nat × Nat

/-- OpenCV `m.create(rows, cols, type)`: a matrix of that size (contents unspecified, here `0`). -/
def Mat.create (rows cols : Nat) : Mat Nat :=
  { rows := rows, cols := cols, data := List.replicate (rows * cols) 0 }

/-- OpenCV `Mat3b::zeros(rows, cols)`. -/
def Mat.zeros (rows cols : Nat) : Mat Vec3b :=
  { rows := rows, cols := cols, data := List.replicate (rows * cols) (0, 0, 0) }

/-- OpenCV `m == c`: `255` where the element equals `c`, `0` elsewhere. -/
def Mat.cmpEq (m : Mat Nat) (c : Nat) : Mat Nat :=
  { m with data := m.data.map (fun v => if v = c then 255 else 0) }

/-- OpenCV `a | b` on 8-bit matrices of one size. -/
def Mat.bitOr (a b : Mat Nat) : Mat Nat :=
  { a with data := List.zipWith (fun x y => x ||| y) a.data b.data }

/-- OpenCV `m.setTo(value)`: every element becomes `value`. -/
def Mat.setTo {α : Type} (m : Mat α) (value : α) : Mat α :=
  { m with data := m.data.map (fun _ => value) }

/-- OpenCV `m.setTo(value, mask)`: the elements whose mask element is non-zero become
`value`; the mask has the size of `m`. -/
def Mat.setToMasked {α : Type} (m : Mat α) (value : α) (mask : Mat Nat) : Mat α :=
  { m with data := List.zipWith (fun v k => if k ≠ 0 then value else v) m.data mask.data }

/-- OpenCV `src.copyTo(dst, mask)` for a `dst` of the size of `src`: the elements whose
mask element is non-zero are copied. -/
def Mat.copyTo {α : Type} (src dst : Mat α) (mask : Mat Nat) : Mat α :=
  { rows := src.rows, cols := src.cols,
    data := List.zipWith (fun (sd : α × α) k => if k ≠ 0 then sd.1 else sd.2)
      (src.data.zip dst.data) mask.data }

/-- The seed mask built in the frame loop: `mask.create`, then the three `setTo` calls. -/
def seed_mask (near far : Mat Nat) : Mat Nat :=
  let mask := Mat.create near.rows near.cols
  let mask := mask.setTo GC_BGD
  let mask := mask.setToMasked GC_PR_BGD (far.cmpEq 0)
  mask.setToMasked GC_FGD (near.cmpEq 255)

/-- The foreground extraction of the frame loop:
`foreground = zeros; color_mat.copyTo(foreground, (mask == GC_FGD) | (mask == GC_PR_FGD))`. -/
def extract_foreground (color_mat : Mat Vec3b) (mask : Mat Nat) : Mat Vec3b :=
  let foreground := Mat.zeros color_mat.rows color_mat.cols
  color_mat.copyTo foreground ((mask.cmpEq GC_FGD).bitOr (mask.cmpEq GC_PR_FGD))

/-! ## The frame loop of `remove_background.cpp` -/

/-- What one iteration of the frame loop works on: the colour image and the near and far
masks produced by `create_mask_from_depth`. -/
structure FrameInput where
  color_mat : Mat Vec3b
  near : Mat Nat
  far : Mat Nat

/-- The external solver `grabCut(color_mat, mask, ...)`: the refined mask, or the message
of the `cv::Exception` it throws. -/
abbrev Solver : Type := Mat Vec3b → Mat Nat → Except String (Mat Nat)

/-- What a run of `main` leaves behind: the images passed to `imshow`, the lines written
to `std::cerr`, and the exit status. -/
structure RunResult where
  shown : List (Mat Vec3b)
  cerr : List String
  exit_status : Nat

/-- The exit status of a run that leaves the loop through the closed window. -/
def EXIT_SUCCESS : Nat := 0

/-- The exit status returned by the handlers of `main`. -/
def EXIT_FAILURE : Nat := 1

/-- The body of the `while` loop from the masks on: seed mask, solver, foreground.  The
solver's exception is not handled here and leaves the body. -/
def process_frame (grabCut : Solver) (frame : FrameInput) : Except String (Mat Vec3b) :=
  match grabCut frame.color_mat (seed_mask frame.near frame.far) with
  | Except.error e => Except.error e
  | Except.ok mask => Except.ok (extract_foreground frame.color_mat mask)

/-- The `while` loop of `main` over the frames delivered until the window is closed; an
exception leaves the loop with the images shown so far. -/
def frame_loop (grabCut : Solver) : List FrameInput → List (Mat Vec3b) →
    List (Mat Vec3b) × Except String Unit
  | [], shown => (shown, Except.ok ())
  | frame :: rest, shown =>
    match process_frame grabCut frame with
    | Except.error e => (shown, Except.error e)
    | Except.ok foreground => frame_loop grabCut rest (shown ++ [foreground])

/-- The function `main` of `remove_background.cpp` with its function-level handler
`catch (const std::exception& e) { std::cerr << e.what(); return EXIT_FAILURE; }`. -/
def remove_background_main (grabCut : Solver) (frames : List FrameInput) : RunResult :=
  match frame_loop grabCut frames [] with
  | (shown, Except.ok _) => { shown := shown, cerr := [], exit_status := EXIT_SUCCESS }
  | (shown, Except.error e) => { shown := shown, cerr := [e], exit_status := EXIT_FAILURE }

/-- The frame loop as the specification words it: a frame on which the solver fails is
skipped and the loop goes on with the next frame. -/
def frame_loop_skipping (grabCut : Solver) : List FrameInput → List (Mat Vec3b)
  | [] => []
  | frame :: rest =>
    match process_frame grabCut frame with
    | Except.error _ => frame_loop_skipping grabCut rest
    | Except.ok foreground => foreground :: frame_loop_skipping grabCut rest

/-- A depth value counted by the histogram: `0 < d * depth_scale <= clipping_dist`. -/
def validDepth (depth_scale clipping_dist : ℚ) (d : Nat) : Prop :=
  0 < (d : ℚ) * depth_scale ∧ (d : ℚ) * depth_scale ≤ clipping_dist

instance (depth_scale clipping_dist : ℚ) (d : Nat) :
    Decidable (validDepth depth_scale clipping_dist d) := by
  unfold validDepth; infer_instance

/-- The number of depth values of the list that are valid and fall into slot `s`. -/
def pixelsInSlot (depth_scale clipping_dist : ℚ) (s : Nat) (depth : List Nat) : Nat :=
  depth.countP (fun d => decide (validDepth depth_scale clipping_dist d ∧ d >>> slotSizeFactor = s))

/-- The number of depth values of the list that are valid. -/
def validPixels (depth_scale clipping_dist : ℚ) (depth : List Nat) : Nat :=
  depth.countP (fun d => decide (validDepth depth_scale clipping_dist d))

/-- The number of depth values of the list that the counting pass does not skip and that fall
into slot `s`. -/
def countedInSlot (depth_scale clipping_dist : ℚ) (s : Nat) (depth : List Nat) : Nat :=
  depth.countP
    (fun d => decide (¬ isInvalid depth_scale clipping_dist d ∧ d >>> slotSizeFactor = s))

/-- The `float` nearest to 0.001, `0x3A83126F`: the depth scale of a camera with millimetre
units. -/
def float_0_001 : ℚ := 8589935 / 8589934592

/-- A 640x480 depth frame in which every pixel is at 1000 units (1 m with the scale 0.001). -/
def wall_depth : List Nat := List.replicate 307200 1000

/-! ## The near mask and the profile check -/

/-- The two threshold types the code passes to `cv::threshold` (`cv::ThresholdTypes`). -/
inductive ThresholdTypes where
  | THRESH_BINARY
  | THRESH_BINARY_INV
  deriving DecidableEq, Repr

/-- OpenCV `cv::threshold` on one 8-bit element: `THRESH_BINARY` gives `maxval` if
`src > thresh` and `0` otherwise; `THRESH_BINARY_INV` gives `0` if `src > thresh` and `maxval`
otherwise. -/
def threshold_value (src thresh maxval : Nat) : ThresholdTypes → Nat
  | ThresholdTypes.THRESH_BINARY => if src > thresh then maxval else 0
  | ThresholdTypes.THRESH_BINARY_INV => if src > thresh then 0 else maxval

/-- OpenCV `cv::threshold(src, dst, thresh, maxval, type)` on an 8-bit matrix. -/
def Mat.threshold (src : Mat Nat) (thresh maxval : Nat) (type : ThresholdTypes) : Mat Nat :=
  { src with data := src.data.map (fun v => threshold_value v thresh maxval type) }

/-- The lambda `create_mask_from_depth`: threshold with maximum 255, then `dilate` with
`erode_less` and `erode` with `erode_more`; the two morphological operations of OpenCV are
parameters. -/
def create_mask_from_depth (dilate erode : Mat Nat → Mat Nat) (depth : Mat Nat) (tresh : Nat)
    (type : ThresholdTypes) : Mat Nat :=
  erode (dilate (depth.threshold tresh 255 type))

/-- The near mask of the frame loop: `create_mask_from_depth(near, 180, THRESH_BINARY)`. -/
def near_mask (dilate erode : Mat Nat → Mat Nat) (gray : Mat Nat) : Mat Nat :=
  create_mask_from_depth dilate erode gray 180 ThresholdTypes.THRESH_BINARY

/-- The function `profile_changed`: the loop over `prev` returns `true` at the first profile
whose `unique_id` is not found in `current` by `std::find_if`, and `false` after the loop. -/
def profile_changed (current : List stream_profile) : List stream_profile → Bool
  | [] => false
  | sp :: prev =>
    if (current.find? (fun current_sp => decide (sp.unique_id = current_sp.unique_id))).isNone
    then true
    else profile_changed current prev

/-- A profile list with a depth stream (id 0) and a colour stream (id 1). -/
def depth_and_color : List stream_profile :=
  [⟨rs2_stream.RS2_STREAM_DEPTH, 0⟩, ⟨rs2_stream.RS2_STREAM_COLOR, 1⟩]

/-! ## Scenarios -/

/-- Scenario A: the 2x2 depth frame. -/
def scenarioA_depth : List Nat := [100, 5000, 100, 5000]

/-- Scenario A: the 2x2 colour frame with 3 bytes per pixel, every pixel `[10, 20, 30]`. -/
def scenarioA_color : List Nat := [10, 20, 30, 10, 20, 30, 10, 20, 30, 10, 20, 30]

/-- Scenario B: five pixels in one row, two at 32 units and three at 96 units. -/
def scenarioB_depth : List Nat := [32, 32, 96, 96, 96]

/-- Scenario B: the colour row with 3 bytes per pixel, every pixel `[10, 20, 30]`. -/
def scenarioB_color : List Nat := [10, 20, 30, 10, 20, 30, 10, 20, 30, 10, 20, 30, 10, 20, 30]

/-- A stream list with a depth stream and one further stream, of type `RS2_STREAM_ANY`. -/
def depth_and_any : List stream_profile :=
  [⟨rs2_stream.RS2_STREAM_DEPTH, 0⟩, ⟨rs2_stream.RS2_STREAM_ANY, 1⟩]

/-- A stream list with a depth stream and an infrared stream. -/
def depth_and_infrared : List stream_profile :=
  [⟨rs2_stream.RS2_STREAM_DEPTH, 0⟩, ⟨rs2_stream.RS2_STREAM_INFRARED, 1⟩]

/-- A solver that fails, as `grabCut` does, on a seed mask without any foreground label and
otherwise returns the mask it was given. -/
def sample_solver : Solver := fun _ mask =>
  if mask.data.all (fun l => decide (l ≠ GC_FGD ∧ l ≠ GC_PR_FGD)) then
    Except.error "grabCut: no foreground samples"
  else Except.ok mask

/-- A 1x1 frame with nothing near: the near mask is 0, the far mask is 255. -/
def far_frame : FrameInput :=
  { color_mat := ⟨1, 1, [(1, 2, 3)]⟩, near := ⟨1, 1, [0]⟩, far := ⟨1, 1, [255]⟩ }

/-- A 1x1 frame whose pixel is near: the near mask is 255, the far mask is 0. -/
def near_frame : FrameInput :=
  { color_mat := ⟨1, 1, [(1, 2, 3)]⟩, near := ⟨1, 1, [255]⟩, far := ⟨1, 1, [0]⟩ }

/-! ## Loop invariants -/

/-- Invariant rule for `forEachPixel`: a property indexed by the number of
pixels already visited that holds initially and is carried by the body holds
after the last pixel. -/
theorem forEachPixel_inv {σ : Type} (width height : Nat) (body : Nat → Nat → Nat → σ → σ)
    (Inv : Nat → σ → Prop) (s0 : σ) (h0 : Inv 0 s0)
    (hstep : ∀ y x s, y < height → x < width → Inv (y * width + x) s →
      Inv (y * width + x + 1) (body y x (y * width + x) s)) :
    Inv (height * width) (forEachPixel width height body s0) := by
  unfold forEachPixel
  have row : ∀ y s, y < height → Inv (y * width) s → ∀ w, w ≤ width →
      Inv (y * width + w) ((List.range w).foldl (fun s x => body y x (y * width + x) s) s) := by
    intro y s hy hs w
    induction w with
    | zero => intro _; simpa using hs
    | succ w ih =>
      intro hw
      rw [List.range_succ, List.foldl_append]
      exact hstep y w _ hy (by omega) (ih (by omega))
  have rows : ∀ h, h ≤ height → Inv (h * width) ((List.range h).foldl
      (fun s y => (List.range width).foldl (fun s x => body y x (y * width + x) s) s) s0) := by
    intro h
    induction h with
    | zero => intro _; simpa using h0
    | succ h ih =>
      intro hh
      rw [List.range_succ, List.foldl_append]
      have := row h _ (by omega) (ih (by omega)) width (le_refl _)
      simpa [Nat.succ_mul] using this
  exact rows height (le_refl _)

theorem memset_length (buf : List Nat) (offset value n : Nat) :
    (memset buf offset value n).length = buf.length := by
  induction n generalizing buf offset with
  | zero => rfl
  | succ n ih => simp [memset, ih]

theorem memset_getElem? (buf : List Nat) (offset value n j : Nat) :
    (memset buf offset value n)[j]? =
      if offset ≤ j ∧ j < offset + n ∧ j < buf.length then some value else buf[j]? := by
  induction n generalizing buf offset with
  | zero =>
    have : ¬ (offset ≤ j ∧ j < offset + 0 ∧ j < buf.length) := by omega
    simp only [memset, this, if_false]
  | succ n ih =>
    simp only [memset, ih, List.length_set, List.getElem?_set]
    by_cases h1 : offset = j
    · subst h1
      by_cases h2 : offset < buf.length
      · simp [h2]
      · have : buf[offset]? = none := by simp; omega
        simp [h2, this]
    · by_cases h3 : offset + 1 ≤ j ∧ j < offset + 1 + n ∧ j < buf.length
      · have : offset ≤ j ∧ j < offset + (n + 1) ∧ j < buf.length := by omega
        simp [h3, this]
      · have : ¬ (offset ≤ j ∧ j < offset + (n + 1) ∧ j < buf.length) := by omega
        simp [h1, h3, this]

/-! ## Painting passes -/

theorem PaintInv_init (sel : Nat → Prop) (bpp m v : Nat) (input : List Nat) :
    PaintInv sel bpp m v input 0 input := by
  refine ⟨rfl, fun j => ⟨?_, fun _ => rfl⟩⟩
  rintro ⟨i, hi, _⟩
  omega

theorem PaintInv_skip (sel : Nat → Prop) (bpp m v : Nat) (input : List Nat) (n : Nat)
    (buf : List Nat) (h : PaintInv sel bpp m v input n buf) (hn : ¬ sel n) :
    PaintInv sel bpp m v input (n + 1) buf := by
  obtain ⟨hlen, hb⟩ := h
  refine ⟨hlen, fun j => ⟨?_, ?_⟩⟩
  · rintro ⟨i, hi, hs, h1, h2⟩ hj
    have hne : i ≠ n := fun e => hn (e ▸ hs)
    exact (hb j).1 ⟨i, by omega, hs, h1, h2⟩ hj
  · intro hno
    apply (hb j).2
    rintro ⟨i, hi, hs, h1, h2⟩
    exact hno ⟨i, by omega, hs, h1, h2⟩

theorem PaintInv_paint (sel : Nat → Prop) (bpp m v : Nat) (input : List Nat) (n : Nat)
    (buf : List Nat) (h : PaintInv sel bpp m v input n buf) (hn : sel n) :
    PaintInv sel bpp m v input (n + 1) (memset buf (n * bpp) v m) := by
  obtain ⟨hlen, hb⟩ := h
  refine ⟨by rw [memset_length, hlen], fun j => ⟨?_, ?_⟩⟩
  · rintro ⟨i, hi, hs, h1, h2⟩ hj
    rw [memset_getElem?]
    by_cases hin : n * bpp ≤ j ∧ j < n * bpp + m ∧ j < buf.length
    · rw [if_pos hin]
    · rw [if_neg hin]
      have hne : i ≠ n := by
        rintro rfl
        exact hin ⟨h1, h2, by omega⟩
      exact (hb j).1 ⟨i, by omega, hs, h1, h2⟩ hj
  · intro hno
    rw [memset_getElem?]
    have hin : ¬ (n * bpp ≤ j ∧ j < n * bpp + m ∧ j < buf.length) := by
      rintro ⟨h1, h2, _⟩
      exact hno ⟨n, by omega, hn, h1, h2⟩
    rw [if_neg hin]
    apply (hb j).2
    rintro ⟨i, hi, hs, h1, h2⟩
    exact hno ⟨i, by omega, hs, h1, h2⟩

/-- What `remove_background` leaves in the buffer, byte by byte. -/
theorem remove_background_inv (other_frame depth_frame : List Nat) (width height other_bpp : Nat)
    (depth_scale clipping_dist : ℚ) :
    PaintInv (fun i => isBackground depth_scale clipping_dist (depth_frame.getD i 0))
      other_bpp other_bpp 0x99 other_frame (height * width)
      (remove_background other_frame depth_frame width height other_bpp depth_scale
        clipping_dist) := by
  unfold remove_background
  apply forEachPixel_inv
  · exact PaintInv_init _ _ _ _ _
  · intro y x s _ _ hs
    by_cases hb : isBackground depth_scale clipping_dist (depth_frame.getD (y * width + x) 0)
    · simp only [hb, if_true]
      exact PaintInv_paint _ _ _ _ _ _ _ hs hb
    · simp only [hb, if_false]
      exact PaintInv_skip _ _ _ _ _ _ _ hs hb

theorem remove_background_length (other_frame depth_frame : List Nat)
    (width height other_bpp : Nat) (depth_scale clipping_dist : ℚ) :
    (remove_background other_frame depth_frame width height other_bpp depth_scale
      clipping_dist).length = other_frame.length :=
  (remove_background_inv other_frame depth_frame width height other_bpp depth_scale
    clipping_dist).1

/-- A pixel beyond the clipping distance (or invalid) is `0x99` in all its bytes. -/
theorem remove_background_clipped (color depth : List Nat) (W H bpp : Nat) (scale clip : ℚ)
    (hc : color.length = W * H * bpp) (i : Nat) (hi : i < W * H)
    (hb : isBackground scale clip (depth.getD i 0)) (k : Nat) (hk : k < bpp) :
    (remove_background color depth W H bpp scale clip)[i * bpp + k]? = some 0x99 := by
  have h := (remove_background_inv color depth W H bpp scale clip).2 (i * bpp + k)
  apply h.1 ⟨i, by rw [Nat.mul_comm]; exact hi, hb, by omega, by omega⟩
  have : (i + 1) * bpp ≤ W * H * bpp := Nat.mul_le_mul_right _ hi
  rw [hc]
  rw [Nat.succ_mul] at this
  omega

/-- A pixel within the clipping distance keeps all its bytes. -/
theorem remove_background_kept (color depth : List Nat) (W H bpp : Nat) (scale clip : ℚ)
    (i : Nat) (hb : ¬ isBackground scale clip (depth.getD i 0)) (k : Nat) (hk : k < bpp) :
    (remove_background color depth W H bpp scale clip)[i * bpp + k]? = color[i * bpp + k]? := by
  have h := (remove_background_inv color depth W H bpp scale clip).2 (i * bpp + k)
  apply h.2
  rintro ⟨i', _, hs, h1, h2⟩
  have hii : i' = i := by
    by_contra hne
    rcases Nat.lt_or_gt_of_ne hne with hlt | hgt
    · have : (i' + 1) * bpp ≤ i * bpp := Nat.mul_le_mul_right _ hlt
      rw [Nat.succ_mul] at this
      omega
    · have : (i + 1) * bpp ≤ i' * bpp := Nat.mul_le_mul_right _ hgt
      rw [Nat.succ_mul] at this
      omega
  exact hb (hii ▸ hs)

/-! ## Rounding to `float` -/

theorem roundHalfEven_eq (x : ℚ) (n : ℤ) (h : |x - n| < 1 / 2) : roundHalfEven x = n := by
  rw [abs_lt] at h
  obtain ⟨h1, h2⟩ := h
  unfold roundHalfEven
  by_cases hx : (n : ℚ) ≤ x
  · have hf : ⌊x⌋ = n := by
      rw [Int.floor_eq_iff]
      exact ⟨hx, by linarith⟩
    rw [hf, if_pos (by linarith)]
  · have hf : ⌊x⌋ = n - 1 := by
      rw [Int.floor_eq_iff]
      push_cast
      constructor <;> linarith
    rw [hf]
    push_cast
    rw [if_neg (by linarith), if_pos (by linarith)]
    ring

theorem log2_eq (q : ℚ) (e : ℤ) (h1 : (2 : ℚ) ^ e ≤ q) (h2 : q < (2 : ℚ) ^ (e + 1)) :
    Int.log 2 q = e := by
  have hq : 0 < q := lt_of_lt_of_le (by positivity) h1
  apply le_antisymm
  · have := (Int.lt_zpow_iff_log_lt Nat.one_lt_two hq).mp (by exact_mod_cast h2)
    omega
  · exact (Int.zpow_le_iff_le_log Nat.one_lt_two hq).mp (by exact_mod_cast h1)

/-- The rounded value of a positive `q` with binary exponent `e` that lies within half a unit
of the `n`-th multiple of `2 ^ (e - 23)`. -/
theorem f32_round_eval (q : ℚ) (e n : ℤ) (he : -126 ≤ e) (h1 : (2 : ℚ) ^ e ≤ q)
    (h2 : q < (2 : ℚ) ^ (e + 1)) (hn : |q / (2 : ℚ) ^ (e - 23) - n| < 1 / 2) :
    f32_round q = n * (2 : ℚ) ^ (e - 23) := by
  have hq : 0 < q := lt_of_lt_of_le (by positivity) h1
  unfold f32_round
  rw [if_neg (ne_of_gt hq), abs_of_pos hq, log2_eq q e h1 h2, max_eq_left he,
    roundHalfEven_eq _ n hn]

theorem f32_mul_zero_left (b : ℚ) : f32_mul 0 b = 0 := by
  simp [f32_mul, f32_round]

theorem f32_mul_zero_right (a : ℚ) : f32_mul a 0 = 0 := by
  simp [f32_mul, f32_round]

/-- In `float`, `0.001f * 1000` is `1.0f`: the exact product `1.0000000475` rounds down. -/
theorem f32_mul_0_001_1000 : f32_mul float_0_001 ((1000 : Nat) : ℚ) = 1 := by
  unfold f32_mul float_0_001
  rw [f32_round_eval _ 0 8388608 (by norm_num) (by norm_num) (by norm_num)
    (by rw [abs_lt]; constructor <;> norm_num)]
  norm_num

/-- In `float`, `0.001f * 5000` is `5.0f`. -/
theorem f32_mul_0_001_5000 : f32_mul float_0_001 ((5000 : Nat) : ℚ) = 5 := by
  unfold f32_mul float_0_001
  rw [f32_round_eval _ 2 10485760 (by norm_num) (by norm_num) (by norm_num)
    (by rw [abs_lt]; constructor <;> norm_num)]
  norm_num

/-- In `float`, `0.001f * 100` is `0.1f`. -/
theorem f32_mul_0_001_100 :
    f32_mul float_0_001 ((100 : Nat) : ℚ) = 13421773 / 134217728 := by
  unfold f32_mul float_0_001
  rw [f32_round_eval _ (-4) 13421773 (by norm_num) (by norm_num) (by norm_num)
    (by rw [abs_lt]; constructor <;> norm_num)]
  norm_num

/-! ## The clipping segmenter -/

/-- C1, as stated with the exact product, fails: for a 1x1 frame with one byte per pixel, the
colour byte 7, the depth 1000, the scale `0.001f` and the clipping distance 1, the exact product
`depth * scale` is above the clipping distance, and the byte is 7 after the call, not `0x99`:
the `float` product is `1.0f`, which is not above the clipping distance. -/
theorem remove_background_contract_counterexample :
    float_0_001 * ((1000 : Nat) : ℚ) > 1 ∧
    (remove_background [7] [1000] 1 1 1 float_0_001 1)[0 * 1 + 0]? = some 7 ∧
    ¬ ((float_0_001 * ((1000 : Nat) : ℚ) ≤ 0 ∨ float_0_001 * ((1000 : Nat) : ℚ) > 1) →
        ∀ k, k < 1 →
          (remove_background [7] [1000] 1 1 1 float_0_001 1)[0 * 1 + k]? = some 0x99) := by
  have hkept : (remove_background [7] [1000] 1 1 1 float_0_001 1)[0 * 1 + 0]? = some 7 := by
    rw [remove_background_kept [7] [1000] 1 1 1 float_0_001 1 0 ?_ 0 (by decide)]
    · rfl
    · show ¬ (f32_mul float_0_001 ((1000 : Nat) : ℚ) ≤ 0 ∨
        f32_mul float_0_001 ((1000 : Nat) : ℚ) > 1)
      rw [f32_mul_0_001_1000]
      norm_num
  have hexact : float_0_001 * ((1000 : Nat) : ℚ) > 1 := by
    unfold float_0_001; norm_num
  refine ⟨hexact, hkept, fun h => ?_⟩
  have h99 := h (Or.inr hexact) 0 (by decide)
  rw [hkept] at h99
  cases h99

/-- C1, amended: for a frame of `W * H` pixels with `bpp >= 1` bytes each, `remove_background`
keeps the length of the colour buffer; a pixel `i` for which the `float` product
`depth_scale * depth[i]` (the exact product rounded to binary32) is `<= 0` or
`> clipping_dist` has all its `bpp` bytes equal to `0x99` afterwards, and any other pixel has all
its `bpp` bytes as before the call. -/
theorem remove_background_contract (W H bpp : Nat) (_hbpp : 1 ≤ bpp) (depth color : List Nat)
    (scale clip : ℚ) (_hd : depth.length = W * H) (hc : color.length = W * H * bpp)
    (i : Nat) (hi : i < W * H) :
    (remove_background color depth W H bpp scale clip).length = color.length ∧
    ((f32_mul scale ((depth.getD i 0 : Nat) : ℚ) ≤ 0 ∨
        f32_mul scale ((depth.getD i 0 : Nat) : ℚ) > clip) →
      ∀ k, k < bpp →
        (remove_background color depth W H bpp scale clip)[i * bpp + k]? = some 0x99) ∧
    (¬ (f32_mul scale ((depth.getD i 0 : Nat) : ℚ) ≤ 0 ∨
        f32_mul scale ((depth.getD i 0 : Nat) : ℚ) > clip) →
      ∀ k, k < bpp →
        (remove_background color depth W H bpp scale clip)[i * bpp + k]? =
          color[i * bpp + k]?) :=
  ⟨remove_background_length color depth W H bpp scale clip,
   fun hb k hk => remove_background_clipped color depth W H bpp scale clip hc i hi hb k hk,
   fun hb k hk => remove_background_kept color depth W H bpp scale clip i hb k hk⟩

/-- Scenario A for C1 with the scale `0.001f` and the clipping distance 1: pixel 1 (depth 5000,
`5.0f`) is beyond the clipping distance and becomes `0x99` in its three bytes, pixel 0 (depth
100, `0.1f`) keeps its bytes; the buffer keeps its 12 bytes. -/
theorem remove_background_contract_witness :
    (1 ≤ 3 ∧ scenarioA_depth.length = 2 * 2 ∧ scenarioA_color.length = 2 * 2 * 3 ∧ 1 < 2 * 2) ∧
    (remove_background scenarioA_color scenarioA_depth 2 2 3 float_0_001 1).length = 12 ∧
    (∀ k, k < 3 →
      (remove_background scenarioA_color scenarioA_depth 2 2 3 float_0_001 1)[1 * 3 + k]? =
        some 0x99) ∧
    ∀ k, k < 3 →
      (remove_background scenarioA_color scenarioA_depth 2 2 3 float_0_001 1)[0 * 3 + k]? =
        scenarioA_color[0 * 3 + k]? := by
  have h1 := remove_background_contract 2 2 3 (by decide) scenarioA_depth scenarioA_color
    float_0_001 1 (by decide) (by decide) 1 (by decide)
  have h0 := remove_background_contract 2 2 3 (by decide) scenarioA_depth scenarioA_color
    float_0_001 1 (by decide) (by decide) 0 (by decide)
  refine ⟨by decide, h1.1, h1.2.1 ?_, h0.2.2 ?_⟩
  · right
    show f32_mul float_0_001 ((5000 : Nat) : ℚ) > 1
    rw [f32_mul_0_001_5000]
    norm_num
  · show ¬ (f32_mul float_0_001 ((100 : Nat) : ℚ) ≤ 0 ∨
      f32_mul float_0_001 ((100 : Nat) : ℚ) > 1)
    rw [f32_mul_0_001_100]
    norm_num

/-- C2, as stated, fails in both directions.  A pixel within the clipping distance (depth
100, `0.1f`) whose three bytes were `0x99` before the call is all `0x99` after it, without being
clipped.  And a pixel of depth 1000 with the scale `0.001f` and the clipping distance 1, whose
exact product `depth * scale` is above the clipping distance, keeps its byte 7: the `float`
product is `1.0f`. -/
theorem remove_background_sentinel_counterexample :
    ¬ ((∀ k, k < 3 →
          (remove_background [0x99, 0x99, 0x99] [100] 1 1 3 float_0_001 1)[0 * 3 + k]? =
            some 0x99) ↔
        (float_0_001 * ((100 : Nat) : ℚ) ≤ 0 ∨ float_0_001 * ((100 : Nat) : ℚ) > 1)) ∧
    ¬ ((∀ k, k < 1 →
          (remove_background [7] [1000] 1 1 1 float_0_001 1)[0 * 1 + k]? = some 0x99) ↔
        (float_0_001 * ((1000 : Nat) : ℚ) ≤ 0 ∨ float_0_001 * ((1000 : Nat) : ℚ) > 1)) := by
  constructor
  · intro h
    have hnb : ¬ (float_0_001 * ((100 : Nat) : ℚ) ≤ 0 ∨
        float_0_001 * ((100 : Nat) : ℚ) > 1) := by
      unfold float_0_001; norm_num
    apply hnb
    apply h.1
    intro k hk
    rw [remove_background_kept _ _ _ _ _ _ _ 0 ?_ k hk]
    · interval_cases k <;> rfl
    · show ¬ (f32_mul float_0_001 ((100 : Nat) : ℚ) ≤ 0 ∨
        f32_mul float_0_001 ((100 : Nat) : ℚ) > 1)
      rw [f32_mul_0_001_100]
      norm_num
  · intro h
    have hexact : float_0_001 * ((1000 : Nat) : ℚ) > 1 := by
      unfold float_0_001; norm_num
    have h99 := h.2 (Or.inr hexact) 0 (by decide)
    rw [remove_background_kept [7] [1000] 1 1 1 float_0_001 1 0 ?_ 0 (by decide)] at h99
    · cases h99
    · show ¬ (f32_mul float_0_001 ((1000 : Nat) : ℚ) ≤ 0 ∨
        f32_mul float_0_001 ((1000 : Nat) : ℚ) > 1)
      rw [f32_mul_0_001_1000]
      norm_num

/-- C2, amended: after `remove_background` all `bpp` bytes of pixel `i` equal `0x99` if and
only if the pixel is clipped (the `float` product `depth_scale * depth[i]`, the exact product
rounded to binary32, is `<= 0` or `> clipping_dist`) or all its `bpp` bytes were `0x99` before
the call. -/
theorem remove_background_sentinel_iff (W H bpp : Nat) (_hbpp : 1 ≤ bpp) (depth color : List Nat)
    (scale clip : ℚ) (_hd : depth.length = W * H) (hc : color.length = W * H * bpp)
    (i : Nat) (hi : i < W * H) :
    (∀ k, k < bpp →
        (remove_background color depth W H bpp scale clip)[i * bpp + k]? = some 0x99) ↔
      ((f32_mul scale ((depth.getD i 0 : Nat) : ℚ) ≤ 0 ∨
          f32_mul scale ((depth.getD i 0 : Nat) : ℚ) > clip) ∨
        ∀ k, k < bpp → color[i * bpp + k]? = some 0x99) := by
  by_cases hb : isBackground scale clip (depth.getD i 0)
  · constructor
    · intro _; exact Or.inl hb
    · intro _ k hk
      exact remove_background_clipped color depth W H bpp scale clip hc i hi hb k hk
  · constructor
    · intro h
      right
      intro k hk
      rw [← remove_background_kept color depth W H bpp scale clip i hb k hk]
      exact h k hk
    · rintro (h | h)
      · exact absurd h hb
      · intro k hk
        rw [remove_background_kept color depth W H bpp scale clip i hb k hk]
        exact h k hk

/-- Scenario A for C2 with the scale `0.001f`: pixel 0 (depth 100, `0.1f`) is within the
clipping distance and was `[10, 20, 30]`, so it is not all `0x99` after the call. -/
theorem remove_background_sentinel_iff_witness :
    (1 ≤ 3 ∧ scenarioA_depth.length = 2 * 2 ∧ scenarioA_color.length = 2 * 2 * 3 ∧ 0 < 2 * 2) ∧
    ¬ (∀ k, k < 3 →
      (remove_background scenarioA_color scenarioA_depth 2 2 3 float_0_001 1)[0 * 3 + k]? =
        some 0x99) := by
  refine ⟨by decide, ?_⟩
  rw [remove_background_sentinel_iff 2 2 3 (by decide) scenarioA_depth scenarioA_color
    float_0_001 1 (by decide) (by decide) 0 (by decide)]
  rintro (h | h)
  · have h' : f32_mul float_0_001 ((100 : Nat) : ℚ) ≤ 0 ∨
        f32_mul float_0_001 ((100 : Nat) : ℚ) > 1 := h
    rw [f32_mul_0_001_100] at h'
    norm_num at h'
  · have := h 0 (by decide)
    simp [scenarioA_color] at this

/-- C7: applying `remove_background` a second time with the same depth buffer, scale and
clipping distance to the buffer produced by the first application changes nothing. -/
theorem remove_background_idempotent (color depth : List Nat) (W H bpp : Nat) (scale clip : ℚ) :
    remove_background (remove_background color depth W H bpp scale clip) depth W H bpp scale clip
      = remove_background color depth W H bpp scale clip := by
  apply List.ext_getElem?
  intro j
  have h1 := remove_background_inv color depth W H bpp scale clip
  have h2 := remove_background_inv (remove_background color depth W H bpp scale clip) depth
    W H bpp scale clip
  by_cases hex : ∃ i, i < H * W ∧ isBackground scale clip (depth.getD i 0) ∧
      i * bpp ≤ j ∧ j < i * bpp + bpp
  · by_cases hj : j < color.length
    · rw [(h2.2 j).1 hex (by rw [h1.1]; exact hj), (h1.2 j).1 hex hj]
    · have e1 : (remove_background color depth W H bpp scale clip)[j]? = none := by
        rw [List.getElem?_eq_none_iff, h1.1]; omega
      have e2 : (remove_background (remove_background color depth W H bpp scale clip) depth
          W H bpp scale clip)[j]? = none := by
        rw [List.getElem?_eq_none_iff, h2.1, h1.1]; omega
      rw [e1, e2]
  · exact (h2.2 j).2 hex

/-! ## The histogram of `highlight_closest` -/

theorem f32_mul_comm (a b : ℚ) : f32_mul a b = f32_mul b a := by
  unfold f32_mul
  rw [mul_comm]

/-- A depth value 0 (no return) is skipped by the counting pass. -/
theorem isInvalid_zero (scale clip : ℚ) : isInvalid scale clip 0 := by
  left
  rw [Nat.cast_zero, f32_mul_zero_left]

theorem countedInSlot_append (scale clip : ℚ) (s : Nat) (l₁ l₂ : List Nat) :
    countedInSlot scale clip s (l₁ ++ l₂) =
      countedInSlot scale clip s l₁ + countedInSlot scale clip s l₂ := by
  simp [countedInSlot, List.countP_append]

theorem incrementSlot_length (slots : List Nat) (s : Nat) :
    (incrementSlot slots s).length = slots.length := by
  simp [incrementSlot]

theorem incrementSlot_getD (slots : List Nat) (s t : Nat) (hs : s < slots.length) :
    (incrementSlot slots s).getD t 0 =
      if t = s then (slots.getD s 0 + 1) % 65536 else slots.getD t 0 := by
  unfold incrementSlot
  simp only [List.getD_eq_getElem?_getD, List.getElem?_set]
  by_cases h : s = t
  · subst h
    simp [hs]
  · have h' : ¬ t = s := fun e => h e.symm
    simp [h, h']

/-- After the counting pass over the first `n` pixels each counter holds the number of
pixels of its slot that the pass did not skip, modulo `2^16`. -/
theorem countDepthPixels_inv (depth : List Nat) (hd : ∀ d ∈ depth, d < 65536) (W H : Nat)
    (scale clip : ℚ) :
    (countDepthPixels depth W H scale clip).length = noOfSlots ∧
    ∀ s, s < noOfSlots → (countDepthPixels depth W H scale clip).getD s 0 =
      countedInSlot scale clip s (depth.take (H * W)) % 65536 := by
  unfold countDepthPixels
  refine forEachPixel_inv W H _
    (fun n (slots : List Nat) => slots.length = noOfSlots ∧ ∀ s, s < noOfSlots →
      slots.getD s 0 = countedInSlot scale clip s (depth.take n) % 65536) _ ?_ ?_
  · refine ⟨by simp, fun s hs => ?_⟩
    simp [countedInSlot, List.getD_eq_getElem?_getD, List.getElem?_replicate, hs]
  · rintro y x slots _ _ ⟨hlen, hcnt⟩
    generalize y * W + x = n at *
    rw [List.take_succ]
    by_cases hinv : isInvalid scale clip (depth.getD n 0)
    · simp only [hinv, if_true]
      refine ⟨hlen, fun s hs => ?_⟩
      rw [hcnt s hs, countedInSlot_append]
      have : countedInSlot scale clip s depth[n]?.toList = 0 := by
        cases hq : depth[n]? with
        | none => simp [countedInSlot]
        | some d =>
          have hdn : depth.getD n 0 = d := by simp [List.getD_eq_getElem?_getD, hq]
          rw [hdn] at hinv
          simp [countedInSlot, hinv]
      rw [this, Nat.add_zero]
    · simp only [hinv, if_false]
      have hq : depth[n]? = some (depth.getD n 0) := by
        cases hq : depth[n]? with
        | none =>
          exfalso
          have h0 : depth.getD n 0 = 0 := by simp [List.getD_eq_getElem?_getD, hq]
          rw [h0] at hinv
          exact hinv (isInvalid_zero scale clip)
        | some d => simp [List.getD_eq_getElem?_getD, hq]
      have hmem : depth.getD n 0 ∈ depth := List.getElem?_mem hq
      generalize depth.getD n 0 = d at *
      have hslot : d >>> slotSizeFactor < slots.length := by
        have := hd _ hmem
        rw [hlen]
        simp only [noOfSlots, slotSizeFactor, Nat.shiftRight_eq_div_pow]
        omega
      refine ⟨by rw [incrementSlot_length, hlen], fun s hs => ?_⟩
      rw [incrementSlot_getD _ _ _ hslot, countedInSlot_append, hq]
      by_cases hs' : s = d >>> slotSizeFactor
      · have : countedInSlot scale clip s [d] = 1 := by
          simp [countedInSlot, hinv, hs']
        rw [if_pos hs', ← hs', hcnt s hs]
        simp only [Option.toList, this]
        omega
      · have : countedInSlot scale clip s [d] = 0 := by
          simp [countedInSlot, hinv, Ne.symm hs']
        rw [if_neg hs', hcnt s hs]
        simp only [Option.toList, this, Nat.add_zero]

theorem sum_zero_of_getD (l : List Nat) (h : ∀ s, s < l.length → l.getD s 0 = 0) : l.sum = 0 := by
  induction l with
  | nil => rfl
  | cons a t ih =>
    have ha : a = 0 := by simpa using h 0 (by simp)
    have ht : ∀ s, s < t.length → t.getD s 0 = 0 := by
      intro s hs
      simpa using h (s + 1) (by simpa using hs)
    simp [ha, ih ht]

theorem sum_single_of_getD (l : List Nat) (p v : Nat) (hp : p < l.length)
    (h : ∀ s, s < l.length → l.getD s 0 = if s = p then v else 0) : l.sum = v := by
  induction l generalizing p with
  | nil => simp at hp
  | cons a t ih =>
    cases p with
    | zero =>
      have ha : a = v := by simpa using h 0 (by simp)
      have ht : ∀ s, s < t.length → t.getD s 0 = 0 := by
        intro s hs
        simpa using h (s + 1) (by simpa using hs)
      simp [ha, sum_zero_of_getD t ht]
    | succ p =>
      have ha : a = 0 := by simpa using h 0 (by simp)
      have ht : ∀ s, s < t.length → t.getD s 0 = if s = p then v else 0 := by
        intro s hs
        simpa using h (s + 1) (by simpa using hs)
      simp [ha, ih p (by simpa using hp) ht]

theorem pixelsInSlot_wall (s : Nat) :
    pixelsInSlot (1 / 1000) 6 s wall_depth = if s = 31 then 307200 else 0 := by
  have hv : validDepth (1 / 1000) 6 1000 := by
    unfold validDepth; norm_num
  have hs : (1000 >>> slotSizeFactor) = 31 := by decide
  simp only [pixelsInSlot, wall_depth, List.countP_replicate, hv, hs, true_and, decide_eq_true_eq]
  by_cases h : s = 31
  · simp [h]
  · simp [h, Ne.symm h]

/-- In `float`, `1000 * (1/1000)` is `1.0f`. -/
theorem f32_mul_1000_thousandth : f32_mul ((1000 : Nat) : ℚ) (1 / 1000) = 1 := by
  unfold f32_mul
  rw [f32_round_eval _ 0 8388608 (by norm_num) (by norm_num) (by norm_num)
    (by rw [abs_lt]; constructor <;> norm_num)]
  norm_num

/-- The counters of the wall frame for any scale and clipping distance under which the depth
1000 is counted: slot 31 holds 307200 mod 65536 = 45056 and every other slot 0. -/
theorem countDepthPixels_wall (scale clip : ℚ) (hv : ¬ isInvalid scale clip 1000) :
    (countDepthPixels wall_depth 640 480 scale clip).getD 31 0 = 45056 ∧
    (countDepthPixels wall_depth 640 480 scale clip).sum = 45056 := by
  have hd : ∀ d ∈ wall_depth, d < 65536 := by
    intro d hd
    rw [wall_depth, List.mem_replicate] at hd
    omega
  have hlenw : wall_depth.length = 640 * 480 := by rw [wall_depth, List.length_replicate]
  have htake : wall_depth.take (480 * 640) = wall_depth :=
    List.take_of_length_le (le_of_eq hlenw)
  have hs : (1000 >>> slotSizeFactor) = 31 := by decide
  have hcounted : ∀ s, countedInSlot scale clip s wall_depth =
      if s = 31 then 307200 else 0 := by
    intro s
    simp only [countedInSlot, wall_depth, List.countP_replicate, hv, hs, not_false_eq_true,
      true_and, decide_eq_true_eq]
    by_cases h : s = 31
    · simp [h]
    · simp [h, Ne.symm h]
  obtain ⟨hlen, hcnt⟩ := countDepthPixels_inv wall_depth hd 640 480 scale clip
  rw [htake] at hcnt
  have hget : ∀ s, s < (countDepthPixels wall_depth 640 480 scale clip).length →
      (countDepthPixels wall_depth 640 480 scale clip).getD s 0 =
        if s = 31 then 45056 else 0 := by
    intro s hs
    rw [hcnt s (hlen ▸ hs), hcounted]
    by_cases h : s = 31 <;> simp [h]
  have h31 : 31 < (countDepthPixels wall_depth 640 480 scale clip).length := by
    rw [hlen]; decide
  exact ⟨by rw [hget 31 h31, if_pos rfl], sum_single_of_getD _ 31 45056 h31 hget⟩

/-- C3 at a frame the camera delivers: a 640x480 frame whose 307200 pixels are all at
1000 units (a wall at 1 m, scale 0.001, clipping distance 6 m).  All pixels are valid and fall
into slot 31, yet the counter of slot 31 holds 307200 mod 65536 = 45056 after the counting
pass, and so does the sum of all counters; the same holds with the scale `0.001f`. -/
theorem countDepthPixels_wraps :
    wall_depth.length = 640 * 480 ∧ (∀ d ∈ wall_depth, d < 65536) ∧
    validPixels (1 / 1000) 6 wall_depth = 307200 ∧
    pixelsInSlot (1 / 1000) 6 31 wall_depth = 307200 ∧
    (countDepthPixels wall_depth 640 480 (1 / 1000) 6).getD 31 0 = 45056 ∧
    (countDepthPixels wall_depth 640 480 (1 / 1000) 6).sum = 45056 ∧
    validPixels float_0_001 6 wall_depth = 307200 ∧
    pixelsInSlot float_0_001 6 31 wall_depth = 307200 ∧
    (countDepthPixels wall_depth 640 480 float_0_001 6).getD 31 0 = 45056 ∧
    (countDepthPixels wall_depth 640 480 float_0_001 6).sum = 45056 := by
  have hd : ∀ d ∈ wall_depth, d < 65536 := by
    intro d hd
    rw [wall_depth, List.mem_replicate] at hd
    omega
  have hv : validDepth (1 / 1000) 6 1000 := by
    unfold validDepth; norm_num
  have hvf : validDepth float_0_001 6 1000 := by
    unfold validDepth float_0_001; norm_num
  have hs : (1000 >>> slotSizeFactor) = 31 := by decide
  have hlenw : wall_depth.length = 640 * 480 := by rw [wall_depth, List.length_replicate]
  have hcode : ¬ isInvalid (1 / 1000) 6 1000 := by
    unfold isInvalid
    rw [f32_mul_1000_thousandth]
    norm_num
  have hcodef : ¬ isInvalid float_0_001 6 1000 := by
    unfold isInvalid
    rw [f32_mul_comm, f32_mul_0_001_1000]
    norm_num
  obtain ⟨w1, w2⟩ := countDepthPixels_wall (1 / 1000) 6 hcode
  obtain ⟨f1, f2⟩ := countDepthPixels_wall float_0_001 6 hcodef
  refine ⟨hlenw, hd, ?_, ?_, w1, w2, ?_, ?_, f1, f2⟩
  · rw [validPixels, wall_depth, List.countP_replicate]
    simp only [hv, decide_True, if_true]
  · rw [pixelsInSlot_wall, if_pos rfl]
  · rw [validPixels, wall_depth, List.countP_replicate]
    simp only [hvf, decide_True, if_true]
  · rw [pixelsInSlot, wall_depth, List.countP_replicate]
    simp only [hvf, hs, and_self, decide_True, if_true]

/-! ## Band selection -/

/-- The scan of `findMaxSlot`: the result bounds every counter, is attained at `max_pos`, and
no counter before `max_pos` reaches it. -/
theorem findMaxSlot_inv (slots : List Nat) :
    (∀ i, i < noOfSlots → slots.getD i 0 ≤ (findMaxSlot slots).1) ∧
    (∀ j, j < (findMaxSlot slots).2 → slots.getD j 0 < (findMaxSlot slots).1) ∧
    (findMaxSlot slots).2 < noOfSlots ∧
    slots.getD (findMaxSlot slots).2 0 = (findMaxSlot slots).1 := by
  have scan : ∀ n, n ≤ noOfSlots →
      let acc := (List.range n).foldl (fun (acc : Nat × Nat) i =>
        if slots.getD i 0 > acc.1 then (slots.getD i 0, i) else acc) (0, 0)
      (∀ i, i < n → slots.getD i 0 ≤ acc.1) ∧ (∀ j, j < acc.2 → slots.getD j 0 < acc.1) ∧
      ((acc.2 = 0 ∧ acc.1 = 0) ∨ (acc.2 < n ∧ slots.getD acc.2 0 = acc.1)) := by
    intro n
    induction n with
    | zero =>
      intro _
      refine ⟨fun i hi => absurd hi (Nat.not_lt_zero i), fun j hj => ?_, Or.inl ⟨rfl, rfl⟩⟩
      exact absurd hj (Nat.not_lt_zero j)
    | succ n ih =>
      intro hn
      obtain ⟨h1, h2, h3⟩ := ih (by omega)
      rw [List.range_succ, List.foldl_append]
      simp only [List.foldl_cons, List.foldl_nil]
      generalize (List.range n).foldl (fun (acc : Nat × Nat) i =>
        if slots.getD i 0 > acc.1 then (slots.getD i 0, i) else acc) (0, 0) = acc at h1 h2 h3 ⊢
      by_cases hgt : slots.getD n 0 > acc.1
      · rw [if_pos hgt]
        refine ⟨fun i hi => ?_, fun j hj => ?_, Or.inr ⟨by omega, rfl⟩⟩
        · rcases Nat.lt_succ_iff_lt_or_eq.mp hi with h | h
          · exact le_of_lt (lt_of_le_of_lt (h1 i h) hgt)
          · rw [h]
        · exact lt_of_le_of_lt (h1 j hj) hgt
      · rw [if_neg hgt]
        refine ⟨fun i hi => ?_, h2, ?_⟩
        · rcases Nat.lt_succ_iff_lt_or_eq.mp hi with h | h
          · exact h1 i h
          · rw [h]; omega
        · rcases h3 with h | ⟨h, h'⟩
          · exact Or.inl h
          · exact Or.inr ⟨by omega, h'⟩
  obtain ⟨h1, h2, h3⟩ := scan noOfSlots (le_refl _)
  refine ⟨h1, h2, ?_, ?_⟩
  · rcases h3 with ⟨h, _⟩ | ⟨h, _⟩
    · unfold findMaxSlot; rw [h]; decide
    · exact h
  · rcases h3 with ⟨h, h'⟩ | ⟨_, h⟩
    · have := h1 0 (by decide)
      unfold findMaxSlot
      rw [h, h']
      rw [h'] at this
      omega
    · exact h

/-- In `float`, `32 * (1/1000)` is `0.032f`. -/
theorem f32_mul_32_thousandth :
    f32_mul ((32 : Nat) : ℚ) (1 / 1000) = 8589935 / 268435456 := by
  unfold f32_mul
  rw [f32_round_eval _ (-5) 8589935 (by norm_num) (by norm_num) (by norm_num)
    (by rw [abs_lt]; constructor <;> norm_num)]
  norm_num

/-- In `float`, `96 * (1/1000)` is `0.096f`. -/
theorem f32_mul_96_thousandth :
    f32_mul ((96 : Nat) : ℚ) (1 / 1000) = 12884902 / 134217728 := by
  unfold f32_mul
  rw [f32_round_eval _ (-4) 12884902 (by norm_num) (by norm_num) (by norm_num)
    (by rw [abs_lt]; constructor <;> norm_num)]
  norm_num

theorem countedInSlot_scenarioB (s : Nat) :
    countedInSlot (1 / 1000) 1 s scenarioB_depth =
      if s = 1 then 2 else if s = 3 then 3 else 0 := by
  have hv32 : ¬ isInvalid (1 / 1000) 1 32 := by
    unfold isInvalid
    rw [f32_mul_32_thousandth]
    norm_num
  have hv96 : ¬ isInvalid (1 / 1000) 1 96 := by
    unfold isInvalid
    rw [f32_mul_96_thousandth]
    norm_num
  have hs32 : (32 >>> slotSizeFactor) = 1 := by decide
  have hs96 : (96 >>> slotSizeFactor) = 3 := by decide
  simp only [countedInSlot, scenarioB_depth, List.countP_cons, List.countP_nil, hv32, hv96, hs32,
    hs96, not_false_eq_true, true_and, decide_eq_true_eq]
  by_cases h1 : s = 1
  · subst h1; simp
  · by_cases h3 : s = 3
    · subst h3; simp
    · simp [h1, h3, Ne.symm h1, Ne.symm h3]

theorem findMaxSlot_scenarioB :
    findMaxSlot (countDepthPixels scenarioB_depth 5 1 (1 / 1000) 1) = (3, 3) := by
  have hd : ∀ d ∈ scenarioB_depth, d < 65536 := by decide
  obtain ⟨-, hcnt⟩ := countDepthPixels_inv scenarioB_depth hd 5 1 (1 / 1000) 1
  have htake : scenarioB_depth.take (1 * 5) = scenarioB_depth := rfl
  rw [htake] at hcnt
  have hget : ∀ s, s < noOfSlots →
      (countDepthPixels scenarioB_depth 5 1 (1 / 1000) 1).getD s 0 =
        if s = 1 then 2 else if s = 3 then 3 else 0 := by
    intro s hs
    rw [hcnt s hs, countedInSlot_scenarioB]
    by_cases h1 : s = 1
    · simp [h1]
    · by_cases h3 : s = 3 <;> simp [h1, h3]
  obtain ⟨h1, -, h3, h4⟩ := findMaxSlot_inv (countDepthPixels scenarioB_depth 5 1 (1 / 1000) 1)
  have hge := h1 3 (by decide)
  rw [hget 3 (by decide)] at hge
  rw [hget _ h3] at h4
  simp only [show ¬ (3 = 1) by decide, if_false, if_true] at hge
  have hpos : (findMaxSlot (countDepthPixels scenarioB_depth 5 1 (1 / 1000) 1)).2 = 3 := by
    by_contra hne
    by_cases hone : (findMaxSlot (countDepthPixels scenarioB_depth 5 1 (1 / 1000) 1)).2 = 1
    · rw [if_pos hone] at h4; omega
    · rw [if_neg hone, if_neg hne] at h4; omega
  rw [hpos] at h4
  simp only [show ¬ (3 = 1) by decide, if_false, if_true] at h4
  exact Prod.ext h4.symm hpos

/-- At the rounding boundary the counting pass follows the `float` product: with the scale
`0.001f` and the clipping distance 1, the depths `[1000, 1000, 100]` are all counted (`0.001f *
1000` is `1.0f`), and band 31 is selected with count 2. -/
theorem findMaxSlot_boundary :
    findMaxSlot (countDepthPixels [1000, 1000, 100] 3 1 float_0_001 1) = (2, 31) := by
  have hv1000 : ¬ isInvalid float_0_001 1 1000 := by
    unfold isInvalid
    rw [f32_mul_comm, f32_mul_0_001_1000]
    norm_num
  have hv100 : ¬ isInvalid float_0_001 1 100 := by
    unfold isInvalid
    rw [f32_mul_comm, f32_mul_0_001_100]
    norm_num
  have hs1000 : (1000 >>> slotSizeFactor) = 31 := by decide
  have hs100 : (100 >>> slotSizeFactor) = 3 := by decide
  have hcounted : ∀ s, countedInSlot float_0_001 1 s [1000, 1000, 100] =
      if s = 31 then 2 else if s = 3 then 1 else 0 := by
    intro s
    simp only [countedInSlot, List.countP_cons, List.countP_nil, hv1000, hv100, hs1000, hs100,
      not_false_eq_true, true_and, decide_eq_true_eq]
    by_cases h1 : s = 31
    · subst h1; simp
    · by_cases h3 : s = 3
      · subst h3; simp
      · simp [h1, h3, Ne.symm h1, Ne.symm h3]
  obtain ⟨-, hcnt⟩ := countDepthPixels_inv [1000, 1000, 100] (by decide) 3 1 float_0_001 1
  have htake : ([1000, 1000, 100] : List Nat).take (1 * 3) = [1000, 1000, 100] := rfl
  rw [htake] at hcnt
  have hget : ∀ s, s < noOfSlots →
      (countDepthPixels [1000, 1000, 100] 3 1 float_0_001 1).getD s 0 =
        if s = 31 then 2 else if s = 3 then 1 else 0 := by
    intro s hs
    rw [hcnt s hs, hcounted]
    by_cases h1 : s = 31
    · simp [h1]
    · by_cases h3 : s = 3 <;> simp [h1, h3]
  obtain ⟨h1, -, h3, h4⟩ :=
    findMaxSlot_inv (countDepthPixels [1000, 1000, 100] 3 1 float_0_001 1)
  have hge := h1 31 (by decide)
  rw [hget 31 (by decide), if_pos rfl] at hge
  rw [hget _ h3] at h4
  have hpos : (findMaxSlot (countDepthPixels [1000, 1000, 100] 3 1 float_0_001 1)).2 = 31 := by
    by_contra hne
    rw [if_neg hne] at h4
    by_cases hthree : (findMaxSlot (countDepthPixels [1000, 1000, 100] 3 1 float_0_001 1)).2 = 3
    · rw [if_pos hthree] at h4; omega
    · rw [if_neg hthree] at h4; omega
  rw [hpos, if_pos rfl] at h4
  exact Prod.ext h4.symm hpos

/-- C4: for every content of the 2048 counters, after the scan `max_count` is the maximum of
the counters (it bounds them all and is the counter of slot `max_pos`), `max_pos` is the lowest
slot holding it (no earlier slot holds `max_count`, so of two slots with the maximal count the
higher one is never selected), all-zero counters give `max_pos = 0`, `max_count = 0`, and the
depths `[32, 32, 96, 96, 96]` give `max_pos = 3`, `max_count = 3`. -/
theorem findMaxSlot_lowest_maximum (slot_counts : List Nat)
    (hlen : slot_counts.length = noOfSlots) :
    ((findMaxSlot slot_counts).2 < noOfSlots ∧
      slot_counts[(findMaxSlot slot_counts).2]? = some (findMaxSlot slot_counts).1) ∧
    (∀ i c : Nat, slot_counts[i]? = some c → c ≤ (findMaxSlot slot_counts).1) ∧
    (∀ j c : Nat, j < (findMaxSlot slot_counts).2 → slot_counts[j]? = some c →
      c ≠ (findMaxSlot slot_counts).1) ∧
    (∀ a b : Nat, a < b → slot_counts[a]? = some (findMaxSlot slot_counts).1 →
      slot_counts[b]? = some (findMaxSlot slot_counts).1 → (findMaxSlot slot_counts).2 ≠ b) ∧
    ((∀ i c : Nat, slot_counts[i]? = some c → c = 0) → findMaxSlot slot_counts = (0, 0)) ∧
    findMaxSlot (countDepthPixels scenarioB_depth 5 1 (1 / 1000) 1) = (3, 3) := by
  obtain ⟨h1, h2, h3, h4⟩ := findMaxSlot_inv slot_counts
  have hget : ∀ i c : Nat, slot_counts[i]? = some c → slot_counts.getD i 0 = c := by
    intro i c h
    simp [List.getD_eq_getElem?_getD, h]
  have hlt : ∀ i c : Nat, slot_counts[i]? = some c → i < noOfSlots := by
    intro i c h
    by_contra hge
    have hnone : slot_counts[i]? = none := List.getElem?_eq_none (by omega)
    rw [hnone] at h
    cases h
  have hsome : ∀ i, i < noOfSlots → slot_counts[i]? = some (slot_counts.getD i 0) := by
    intro i hi
    rw [List.getD_eq_getElem?_getD, List.getElem?_eq_getElem (by rw [hlen]; exact hi)]
    rfl
  refine ⟨⟨h3, ?_⟩, ?_, ?_, ?_, ?_, findMaxSlot_scenarioB⟩
  · rw [hsome _ h3, h4]
  · intro i c h
    rw [← hget i c h]
    exact h1 i (hlt i c h)
  · intro j c hj h
    rw [← hget j c h]
    exact Nat.ne_of_lt (h2 j hj)
  · intro a b hab ha _ hpos
    have := h2 a (by omega)
    rw [hget a _ ha] at this
    exact Nat.lt_irrefl _ this
  · intro hzero
    have hc : (findMaxSlot slot_counts).1 = 0 := by
      rw [← h4]
      exact hzero _ _ (hsome _ h3)
    have hp : (findMaxSlot slot_counts).2 = 0 := by
      by_contra hne
      have := h2 0 (Nat.pos_of_ne_zero hne)
      omega
    exact Prod.ext hc hp

/-- C4 on the counters of scenario B: slot 3 (count 3) is selected over slot 1 (count 2). -/
theorem findMaxSlot_lowest_maximum_witness :
    (countDepthPixels scenarioB_depth 5 1 (1 / 1000) 1).length = noOfSlots ∧
    (findMaxSlot (countDepthPixels scenarioB_depth 5 1 (1 / 1000) 1)).2 < noOfSlots ∧
    findMaxSlot (countDepthPixels scenarioB_depth 5 1 (1 / 1000) 1) = (3, 3) := by
  have hlen := (countDepthPixels_inv scenarioB_depth (by decide) 5 1 (1 / 1000) 1).1
  have h := findMaxSlot_lowest_maximum _ hlen
  exact ⟨hlen, h.1.1, h.2.2.2.2.2⟩

/-! ## The masking pass -/

/-- A byte offset lies in the byte range of one pixel only. -/
theorem pixel_unique (bpp i i' k : Nat) (hk : k < bpp) (h1 : i' * bpp ≤ i * bpp + k)
    (h2 : i * bpp + k < i' * bpp + bpp) : i' = i := by
  by_contra hne
  rcases Nat.lt_or_gt_of_ne hne with hlt | hgt
  · have : (i' + 1) * bpp ≤ i * bpp := Nat.mul_le_mul_right _ hlt
    rw [Nat.succ_mul] at this
    omega
  · have : (i + 1) * bpp ≤ i' * bpp := Nat.mul_le_mul_right _ hgt
    rw [Nat.succ_mul] at this
    omega

/-- What the masking pass leaves in the colour buffer, byte by byte. -/
theorem maskOtherPixels_inv (color depth : List Nat) (W H bpp max_pos : Nat) :
    PaintInv (fun i => depth.getD i 0 >>> slotSizeFactor ≠ max_pos) bpp 3 0 color (H * W)
      (maskOtherPixels color depth W H bpp max_pos).1 := by
  unfold maskOtherPixels
  refine forEachPixel_inv W H _
    (fun n (st : List Nat × Nat × Nat) =>
      PaintInv (fun i => depth.getD i 0 >>> slotSizeFactor ≠ max_pos) bpp 3 0 color n st.1)
    _ (PaintInv_init _ _ _ _ _) ?_
  intro y x st _ _ hs
  by_cases hb : depth.getD (y * W + x) 0 >>> slotSizeFactor = max_pos
  · simp only [hb, if_true]
    exact PaintInv_skip _ _ _ _ _ _ _ hs (fun h => h hb)
  · simp only [hb, if_false]
    exact PaintInv_paint _ _ _ _ _ _ _ hs hb

/-- C5: for a frame with `bpp >= 3`, `highlight_closest` leaves the depth buffer as it was; a
pixel whose slot `depth[i] >> 5` is the selected band `max_pos` keeps all its `bpp` bytes; any
other pixel has the bytes at `i * bpp`, `i * bpp + 1`, `i * bpp + 2` equal to 0 and keeps every
further byte. -/
theorem highlight_closest_masking (W H bpp : Nat) (hbpp : 3 ≤ bpp) (depth color : List Nat)
    (scale clip : ℚ) (_hd : depth.length = W * H) (hc : color.length = W * H * bpp)
    (i : Nat) (hi : i < W * H) :
    (highlight_closest ⟨depth, color⟩ W H bpp scale clip).depth_frame = depth ∧
    (depth.getD i 0 >>> 5 = (findMaxSlot (countDepthPixels depth W H scale clip)).2 →
      ∀ k, k < bpp →
        (highlight_closest ⟨depth, color⟩ W H bpp scale clip).other_frame[i * bpp + k]? =
          color[i * bpp + k]?) ∧
    (depth.getD i 0 >>> 5 ≠ (findMaxSlot (countDepthPixels depth W H scale clip)).2 →
      (highlight_closest ⟨depth, color⟩ W H bpp scale clip).other_frame[i * bpp]? = some 0 ∧
      (highlight_closest ⟨depth, color⟩ W H bpp scale clip).other_frame[i * bpp + 1]? = some 0 ∧
      (highlight_closest ⟨depth, color⟩ W H bpp scale clip).other_frame[i * bpp + 2]? = some 0 ∧
      ∀ k, 3 ≤ k → k < bpp →
        (highlight_closest ⟨depth, color⟩ W H bpp scale clip).other_frame[i * bpp + k]? =
          color[i * bpp + k]?) := by
  have hinv := maskOtherPixels_inv color depth W H bpp
    (findMaxSlot (countDepthPixels depth W H scale clip)).2
  have hbound : i * bpp + bpp ≤ color.length := by
    have : (i + 1) * bpp ≤ W * H * bpp := Nat.mul_le_mul_right _ hi
    rw [Nat.succ_mul] at this
    omega
  have hiw : i < H * W := by rw [Nat.mul_comm]; exact hi
  refine ⟨rfl, ?_, ?_⟩
  · intro hband k hk
    apply (hinv.2 (i * bpp + k)).2
    rintro ⟨i', _, hsel, h1, h2⟩
    have hii := pixel_unique bpp i i' k hk h1 (by omega)
    subst hii
    exact hsel hband
  · intro hband
    have zero : ∀ k, k < 3 →
        (highlight_closest ⟨depth, color⟩ W H bpp scale clip).other_frame[i * bpp + k]? =
          some 0 := by
      intro k hk
      exact (hinv.2 (i * bpp + k)).1 ⟨i, hiw, hband, by omega, by omega⟩ (by omega)
    refine ⟨zero 0 (by decide), zero 1 (by decide), zero 2 (by decide), ?_⟩
    intro k hk3 hk
    apply (hinv.2 (i * bpp + k)).2
    rintro ⟨i', _, _, h1, h2⟩
    have hii := pixel_unique bpp i i' k hk h1 (by omega)
    subst hii
    omega

/-- Scenario B for C5: band 3 is selected, so pixel 0 (depth 32, slot 1) has its three bytes
cleared and pixel 2 (depth 96, slot 3) keeps `[10, 20, 30]`. -/
theorem highlight_closest_masking_witness :
    (3 ≤ 3 ∧ scenarioB_depth.length = 5 * 1 ∧ scenarioB_color.length = 5 * 1 * 3) ∧
    ((highlight_closest ⟨scenarioB_depth, scenarioB_color⟩ 5 1 3 (1 / 1000) 1).other_frame[0 * 3]?
        = some 0 ∧
      (highlight_closest ⟨scenarioB_depth, scenarioB_color⟩ 5 1 3 (1 / 1000) 1).other_frame[
        0 * 3 + 1]? = some 0 ∧
      (highlight_closest ⟨scenarioB_depth, scenarioB_color⟩ 5 1 3 (1 / 1000) 1).other_frame[
        0 * 3 + 2]? = some 0) ∧
    ∀ k, k < 3 →
      (highlight_closest ⟨scenarioB_depth, scenarioB_color⟩ 5 1 3 (1 / 1000) 1).other_frame[
        2 * 3 + k]? = scenarioB_color[2 * 3 + k]? := by
  have h0 := highlight_closest_masking 5 1 3 (by decide) scenarioB_depth scenarioB_color
    (1 / 1000) 1 (by decide) (by decide) 0 (by decide)
  have h2 := highlight_closest_masking 5 1 3 (by decide) scenarioB_depth scenarioB_color
    (1 / 1000) 1 (by decide) (by decide) 2 (by decide)
  rw [findMaxSlot_scenarioB] at h0 h2
  obtain ⟨z0, z1, z2, -⟩ := h0.2.2 (by decide)
  exact ⟨by decide, ⟨z0, z1, z2⟩, h2.2.1 (by decide)⟩

/-! ## Seed mask and compositing -/

/-- The label the three `setTo` calls leave at a pixel with near value `n` and far value `f`. -/
theorem seed_mask_getElem? (near far : Mat Nat) (p n f : Nat) (hp : p < near.rows * near.cols)
    (hn : near.data[p]? = some n) (hf : far.data[p]? = some f) :
    (seed_mask near far).data[p]? =
      some (if n = 255 then GC_FGD else if f = 0 then GC_PR_BGD else GC_BGD) := by
  simp only [seed_mask, Mat.create, Mat.setTo, Mat.setToMasked, Mat.cmpEq, List.getElem?_zipWith,
    List.getElem?_map, List.getElem?_replicate, hp, hn, hf, if_true, Option.map_some']
  by_cases h1 : n = 255
  · simp [h1]
  · by_cases h2 : f = 0 <;> simp [h1, h2]

theorem seed_mask_length (near far : Mat Nat) (hf : far.data.length = near.rows * near.cols)
    (hn : near.data.length = near.rows * near.cols) :
    (seed_mask near far).data.length = near.rows * near.cols := by
  simp [seed_mask, Mat.create, Mat.setTo, Mat.setToMasked, Mat.cmpEq, hf, hn]

/-- C6: for near and far masks of one size and every pixel `p`, the seed mask holds `GC_FGD`
if `near[p] == 255`, else `GC_PR_BGD` if `far[p] == 0`, else `GC_BGD`.  Hence where `far[p] == 0`
and `near[p] == 255` hold together the label is `GC_FGD`, no pixel is `GC_PR_FGD`, and with far
all 0 and near all 255 every pixel is `GC_FGD`. -/
theorem seed_mask_labels (near far : Mat Nat) (hrows : far.rows = near.rows)
    (hcols : far.cols = near.cols) (hn : near.data.length = near.rows * near.cols)
    (hf : far.data.length = far.rows * far.cols) :
    ((seed_mask near far).rows = near.rows ∧ (seed_mask near far).cols = near.cols ∧
      (seed_mask near far).data.length = near.rows * near.cols) ∧
    (∀ p, p < near.rows * near.cols → ∃ n f, near.data[p]? = some n ∧ far.data[p]? = some f ∧
      (seed_mask near far).data[p]? =
        some (if n = 255 then GC_FGD else if f = 0 then GC_PR_BGD else GC_BGD)) ∧
    (∀ p : Nat, near.data[p]? = some 255 → far.data[p]? = some 0 →
      (seed_mask near far).data[p]? = some GC_FGD) ∧
    (∀ p : Nat, (seed_mask near far).data[p]? ≠ some GC_PR_FGD) ∧
    ((∀ n ∈ near.data, n = 255) → (∀ f ∈ far.data, f = 0) →
      ∀ p, p < near.rows * near.cols → (seed_mask near far).data[p]? = some GC_FGD) := by
  rw [hrows, hcols] at hf
  have hlen := seed_mask_length near far hf hn
  have hpix : ∀ p, p < near.rows * near.cols → ∃ n f, near.data[p]? = some n ∧
      far.data[p]? = some f ∧ (seed_mask near far).data[p]? =
        some (if n = 255 then GC_FGD else if f = 0 then GC_PR_BGD else GC_BGD) := by
    intro p hp
    have hn' : near.data[p]? = some (near.data[p]) := List.getElem?_eq_getElem (by omega)
    have hf' : far.data[p]? = some (far.data[p]) := List.getElem?_eq_getElem (by omega)
    exact ⟨_, _, hn', hf', seed_mask_getElem? near far p _ _ hp hn' hf'⟩
  refine ⟨⟨rfl, rfl, hlen⟩, hpix, ?_, ?_, ?_⟩
  · intro p hn' hf'
    have hp : p < near.rows * near.cols := by
      by_contra hge
      have hnone : near.data[p]? = none := List.getElem?_eq_none (by omega)
      rw [hnone] at hn'
      cases hn'
    rw [seed_mask_getElem? near far p _ _ hp hn' hf']
    rfl
  · intro p hp3
    have hp : p < near.rows * near.cols := by
      by_contra hge
      have hnone : (seed_mask near far).data[p]? = none := List.getElem?_eq_none (by omega)
      rw [hnone] at hp3
      cases hp3
    obtain ⟨n, f, -, -, h⟩ := hpix p hp
    rw [h] at hp3
    by_cases h1 : n = 255
    · simp [h1, GC_FGD, GC_PR_FGD] at hp3
    · by_cases h2 : f = 0 <;> simp [h1, h2, GC_BGD, GC_PR_BGD, GC_PR_FGD] at hp3
  · intro hnear _ p hp
    obtain ⟨n, f, hn', -, h⟩ := hpix p hp
    rw [h, if_pos (hnear n (List.getElem?_mem hn'))]

/-- Scenario C for C6: a 1x2 frame with far all 0 and near all 255 is labelled `GC_FGD` in
both pixels. -/
theorem seed_mask_labels_witness :
    (seed_mask ⟨1, 2, [255, 255]⟩ ⟨1, 2, [0, 0]⟩).data[0]? = some GC_FGD ∧
    (seed_mask ⟨1, 2, [255, 255]⟩ ⟨1, 2, [0, 0]⟩).data[1]? = some GC_FGD := by
  have h := (seed_mask_labels ⟨1, 2, [255, 255]⟩ ⟨1, 2, [0, 0]⟩ rfl rfl rfl rfl).2.2.2.2
    (by decide) (by decide)
  exact ⟨h 0 (by decide), h 1 (by decide)⟩

/-- The copy mask `(mask == GC_FGD) | (mask == GC_PR_FGD)` is non-zero exactly at the two
foreground labels. -/
theorem foreground_selector (l : Nat) :
    ((if l = GC_FGD then 255 else 0) ||| (if l = GC_PR_FGD then 255 else 0)) ≠ 0 ↔
      (l = GC_FGD ∨ l = GC_PR_FGD) := by
  by_cases h1 : l = GC_FGD
  · subst h1
    simp only [if_true, true_or, iff_true]
    decide
  · by_cases h3 : l = GC_PR_FGD
    · subst h3
      simp only [if_true, or_true, iff_true]
      decide
    · simp [h1, h3]

/-- The pixel `copyTo` leaves in the foreground image for a colour pixel `c` with label `l`. -/
theorem extract_foreground_getElem? (color_mat : Mat Vec3b) (mask : Mat Nat) (p : Nat) (c : Vec3b)
    (l : Nat) (hp : p < color_mat.rows * color_mat.cols) (hc : color_mat.data[p]? = some c)
    (hl : mask.data[p]? = some l) :
    (extract_foreground color_mat mask).data[p]? =
      some (if l = GC_FGD ∨ l = GC_PR_FGD then c else (0, 0, 0)) := by
  simp only [extract_foreground, Mat.zeros, Mat.copyTo, Mat.bitOr, Mat.cmpEq,
    List.getElem?_zipWith, List.getElem?_map, List.getElem?_replicate, List.getElem?_zip_eq_some,
    hp, hc, hl, if_true, Option.map_some']
  have hz : (color_mat.data.zip (List.replicate (color_mat.rows * color_mat.cols)
      ((0, 0, 0) : Vec3b)))[p]? = some (c, (0, 0, 0)) := by
    rw [List.getElem?_zip_eq_some]
    exact ⟨hc, by simp [List.getElem?_replicate, hp]⟩
  rw [hz]
  show some (if ((if l = GC_FGD then 255 else 0) ||| (if l = GC_PR_FGD then 255 else 0)) ≠ 0
    then c else ((0, 0, 0) : Vec3b)) = _
  by_cases h : l = GC_FGD ∨ l = GC_PR_FGD
  · rw [if_pos ((foreground_selector l).mpr h), if_pos h]
  · rw [if_neg (fun hne => h ((foreground_selector l).mp hne)), if_neg h]

/-- C8: for a colour image and a refined mask of the same dimensions, the foreground image
has the dimensions of the colour image, and its pixel at `p` is the colour pixel where the
label is `GC_FGD` or `GC_PR_FGD` and `(0, 0, 0)` for any other label, the two background labels
in particular. -/
theorem extract_foreground_composite (color_mat : Mat Vec3b) (mask : Mat Nat)
    (hrows : mask.rows = color_mat.rows) (hcols : mask.cols = color_mat.cols)
    (hc : color_mat.data.length = color_mat.rows * color_mat.cols)
    (hm : mask.data.length = mask.rows * mask.cols) :
    ((extract_foreground color_mat mask).rows = color_mat.rows ∧
      (extract_foreground color_mat mask).cols = color_mat.cols ∧
      (extract_foreground color_mat mask).data.length = color_mat.rows * color_mat.cols) ∧
    ∀ p, p < color_mat.rows * color_mat.cols → ∃ c l, color_mat.data[p]? = some c ∧
      mask.data[p]? = some l ∧
      ((l = GC_FGD ∨ l = GC_PR_FGD) → (extract_foreground color_mat mask).data[p]? = some c) ∧
      ((l = GC_BGD ∨ l = GC_PR_BGD) →
        (extract_foreground color_mat mask).data[p]? = some (0, 0, 0)) ∧
      (extract_foreground color_mat mask).data[p]? =
        some (if l = GC_FGD ∨ l = GC_PR_FGD then c else (0, 0, 0)) := by
  rw [hrows, hcols] at hm
  refine ⟨⟨rfl, rfl, ?_⟩, ?_⟩
  · simp [extract_foreground, Mat.zeros, Mat.copyTo, Mat.bitOr, Mat.cmpEq, hc, hm]
  · intro p hp
    have hc' : color_mat.data[p]? = some (color_mat.data[p]) :=
      List.getElem?_eq_getElem (by omega)
    have hl' : mask.data[p]? = some (mask.data[p]) := List.getElem?_eq_getElem (by omega)
    have h := extract_foreground_getElem? color_mat mask p _ _ hp hc' hl'
    refine ⟨_, _, hc', hl', ?_, ?_, h⟩
    · intro hfg
      rw [h, if_pos hfg]
    · intro hbg
      have : ¬ (mask.data[p] = GC_FGD ∨ mask.data[p] = GC_PR_FGD) := by
        rcases hbg with hb | hb <;> rw [hb] <;> decide
      rw [h, if_neg this]

/-- A 1x4 image with one pixel of each label for C8: the pixels labelled `GC_FGD` and
`GC_PR_FGD` are kept, the two background pixels are zero. -/
theorem extract_foreground_composite_witness :
    (extract_foreground ⟨1, 4, [(1, 2, 3), (4, 5, 6), (7, 8, 9), (10, 11, 12)]⟩
      ⟨1, 4, [GC_BGD, GC_FGD, GC_PR_BGD, GC_PR_FGD]⟩).data.length = 1 * 4 ∧
    ∃ c l, ([(1, 2, 3), (4, 5, 6), (7, 8, 9), (10, 11, 12)] : List Vec3b)[3]? = some c ∧
      [GC_BGD, GC_FGD, GC_PR_BGD, GC_PR_FGD][3]? = some l ∧
      (extract_foreground ⟨1, 4, [(1, 2, 3), (4, 5, 6), (7, 8, 9), (10, 11, 12)]⟩
        ⟨1, 4, [GC_BGD, GC_FGD, GC_PR_BGD, GC_PR_FGD]⟩).data[3]? =
          some (if l = GC_FGD ∨ l = GC_PR_FGD then c else (0, 0, 0)) := by
  have h := extract_foreground_composite
    ⟨1, 4, [(1, 2, 3), (4, 5, 6), (7, 8, 9), (10, 11, 12)]⟩
    ⟨1, 4, [GC_BGD, GC_FGD, GC_PR_BGD, GC_PR_FGD]⟩ rfl rfl rfl rfl
  obtain ⟨c, l, hc, hl, -, -, hout⟩ := h.2 3 (by decide)
  exact ⟨h.1.2.2, c, l, hc, hl, hout⟩

/-! ## Stream selection -/

theorem lastNonDepth_concat (l : List stream_profile) (sp : stream_profile) :
    lastNonDepth (l ++ [sp]) =
      if sp.stream_type ≠ rs2_stream.RS2_STREAM_DEPTH then some sp.stream_type
      else lastNonDepth l := by
  unfold lastNonDepth
  rw [List.map_append, List.filter_append, List.getLast?_append]
  by_cases h : sp.stream_type = rs2_stream.RS2_STREAM_DEPTH
  · simp [h]
  · simp [h]

theorem lastNonDepth_eq_none (l : List stream_profile) :
    lastNonDepth l = none ↔ ∀ sp ∈ l, sp.stream_type = rs2_stream.RS2_STREAM_DEPTH := by
  unfold lastNonDepth
  rw [List.getLast?_eq_none_iff, List.filter_eq_nil_iff]
  simp

theorem lastNonDepth_mem (l : List stream_profile) (t : rs2_stream) (h : lastNonDepth l = some t) :
    t ≠ rs2_stream.RS2_STREAM_DEPTH ∧ ∃ sp ∈ l, sp.stream_type = t := by
  unfold lastNonDepth at h
  have hm := List.mem_of_getLast?_eq_some h
  rw [List.mem_filter, List.mem_map] at hm
  obtain ⟨⟨sp, hsp, rfl⟩, hne⟩ := hm
  exact ⟨by simpa using hne, sp, hsp, rfl⟩

/-- The locals of `find_stream_to_align` after the loop over the streams. -/
theorem alignSearch_fold (streams : List stream_profile) :
    ((streams.foldl alignSearchStep ⟨rs2_stream.RS2_STREAM_ANY, false, false⟩).depth_stream_found
        = true ↔ ∃ sp ∈ streams, sp.stream_type = rs2_stream.RS2_STREAM_DEPTH) ∧
    ((streams.foldl alignSearchStep ⟨rs2_stream.RS2_STREAM_ANY, false, false⟩).color_stream_found
        = true ↔ ∃ sp ∈ streams, sp.stream_type = rs2_stream.RS2_STREAM_COLOR) ∧
    ((∃ sp ∈ streams, sp.stream_type = rs2_stream.RS2_STREAM_COLOR) →
      (streams.foldl alignSearchStep ⟨rs2_stream.RS2_STREAM_ANY, false, false⟩).align_to =
        rs2_stream.RS2_STREAM_COLOR) ∧
    ((¬ ∃ sp ∈ streams, sp.stream_type = rs2_stream.RS2_STREAM_COLOR) →
      (streams.foldl alignSearchStep ⟨rs2_stream.RS2_STREAM_ANY, false, false⟩).align_to =
        (lastNonDepth streams).getD rs2_stream.RS2_STREAM_ANY) := by
  induction streams using List.reverseRecOn with
  | nil => simp [lastNonDepth]
  | append_singleton l sp ih =>
    obtain ⟨hd, hc, hac, han⟩ := ih
    rw [List.foldl_append, List.foldl_cons, List.foldl_nil, lastNonDepth_concat]
    generalize l.foldl alignSearchStep ⟨rs2_stream.RS2_STREAM_ANY, false, false⟩ = st at *
    have hex : ∀ t : rs2_stream, (∃ sp' ∈ l ++ [sp], sp'.stream_type = t) ↔
        ((∃ sp' ∈ l, sp'.stream_type = t) ∨ sp.stream_type = t) := by
      intro t
      simp [List.mem_append, or_and_right, exists_or]
    rw [hex, hex]
    by_cases hdep : sp.stream_type = rs2_stream.RS2_STREAM_DEPTH
    · have hncol : sp.stream_type ≠ rs2_stream.RS2_STREAM_COLOR := by rw [hdep]; decide
      simp only [alignSearchStep, hdep, ne_eq, not_true, if_false, or_true, iff_true,
        hncol, or_false]
      have hfc : ¬ (rs2_stream.RS2_STREAM_DEPTH = rs2_stream.RS2_STREAM_COLOR) := by decide
      simp only [hfc, or_false]
      exact ⟨trivial, hc, hac, han⟩
    · by_cases hcol : sp.stream_type = rs2_stream.RS2_STREAM_COLOR
      · by_cases hcf : st.color_stream_found = true
        · simp [alignSearchStep, hcol, hcf, hd, hac (hc.mp hcf)]
        · simp [alignSearchStep, hcol, hcf, hd]
      · by_cases hcf : st.color_stream_found = true
        · have hcl := hc.mp hcf
          simp [alignSearchStep, hdep, hcol, hcf, hd, hac hcl, hcl]
        · have hcl : ¬ ∃ sp' ∈ l, sp'.stream_type = rs2_stream.RS2_STREAM_COLOR :=
            fun h => hcf (hc.mpr h)
          simp [alignSearchStep, hdep, hcol, hcf, hd, hc, hcl]

/-- The result of `find_stream_to_align` in its four cases. -/
theorem find_stream_to_align_cases (streams : List stream_profile) :
    ((¬ ∃ sp ∈ streams, sp.stream_type = rs2_stream.RS2_STREAM_DEPTH) →
      find_stream_to_align streams = Except.error "No Depth stream available") ∧
    ((∃ sp ∈ streams, sp.stream_type = rs2_stream.RS2_STREAM_DEPTH) →
      (∃ sp ∈ streams, sp.stream_type = rs2_stream.RS2_STREAM_COLOR) →
      find_stream_to_align streams = Except.ok rs2_stream.RS2_STREAM_COLOR) ∧
    ((∃ sp ∈ streams, sp.stream_type = rs2_stream.RS2_STREAM_DEPTH) →
      (¬ ∃ sp ∈ streams, sp.stream_type = rs2_stream.RS2_STREAM_COLOR) →
      (lastNonDepth streams).getD rs2_stream.RS2_STREAM_ANY = rs2_stream.RS2_STREAM_ANY →
      find_stream_to_align streams = Except.error "No stream found to align with Depth") ∧
    ((∃ sp ∈ streams, sp.stream_type = rs2_stream.RS2_STREAM_DEPTH) →
      (¬ ∃ sp ∈ streams, sp.stream_type = rs2_stream.RS2_STREAM_COLOR) →
      (lastNonDepth streams).getD rs2_stream.RS2_STREAM_ANY ≠ rs2_stream.RS2_STREAM_ANY →
      find_stream_to_align streams =
        Except.ok ((lastNonDepth streams).getD rs2_stream.RS2_STREAM_ANY)) := by
  obtain ⟨hd, -, hac, han⟩ := alignSearch_fold streams
  unfold find_stream_to_align
  generalize streams.foldl alignSearchStep ⟨rs2_stream.RS2_STREAM_ANY, false, false⟩ = st at *
  refine ⟨fun h => ?_, fun h hc => ?_, fun h hc hl => ?_, fun h hc hl => ?_⟩
  · have : st.depth_stream_found = false := by
      cases hf : st.depth_stream_found with
      | false => rfl
      | true => exact absurd (hd.mp hf) h
    simp [this]
  · have hne : ¬ (rs2_stream.RS2_STREAM_COLOR = rs2_stream.RS2_STREAM_ANY) := by decide
    simp [hd.mpr h, hac hc, hne]
  · simp [hd.mpr h, han hc, hl]
  · simp [hd.mpr h, han hc, hl]

/-- C9, as stated, fails: the list `[depth, any]` holds a depth stream and a stream that is not
a depth stream, and `find_stream_to_align` fails on it. -/
theorem find_stream_to_align_counterexample :
    find_stream_to_align depth_and_any = Except.error "No stream found to align with Depth" ∧
    ¬ ((∃ e, find_stream_to_align depth_and_any = Except.error e) ↔
      ((∀ sp ∈ depth_and_any, sp.stream_type ≠ rs2_stream.RS2_STREAM_DEPTH) ∨
        (∀ sp ∈ depth_and_any, sp.stream_type = rs2_stream.RS2_STREAM_DEPTH))) := by
  have hfail : find_stream_to_align depth_and_any =
      Except.error "No stream found to align with Depth" := rfl
  refine ⟨hfail, fun h => ?_⟩
  rcases h.mp ⟨_, hfail⟩ with h1 | h2
  · exact h1 ⟨rs2_stream.RS2_STREAM_DEPTH, 0⟩ (by simp [depth_and_any]) rfl
  · have := h2 ⟨rs2_stream.RS2_STREAM_ANY, 1⟩ (by simp [depth_and_any])
    exact absurd this (by decide)

/-- C9, amended: `find_stream_to_align` fails exactly when the list holds no depth stream, or
holds no colour stream and its last non-depth stream is missing or has the type
`RS2_STREAM_ANY`.  For a list without a stream of type `RS2_STREAM_ANY` this is: it fails if and
only if the list holds no depth stream or no non-depth stream, and a list with both returns a
stream type.  A list without a depth stream fails with "No Depth stream available". -/
theorem find_stream_to_align_fails_iff (streams : List stream_profile) :
    ((∃ e, find_stream_to_align streams = Except.error e) ↔
      ((∀ sp ∈ streams, sp.stream_type ≠ rs2_stream.RS2_STREAM_DEPTH) ∨
        ((∀ sp ∈ streams, sp.stream_type ≠ rs2_stream.RS2_STREAM_COLOR) ∧
          (lastNonDepth streams = none ∨
            lastNonDepth streams = some rs2_stream.RS2_STREAM_ANY)))) ∧
    ((∀ sp ∈ streams, sp.stream_type ≠ rs2_stream.RS2_STREAM_ANY) →
      ((∃ e, find_stream_to_align streams = Except.error e) ↔
        ((∀ sp ∈ streams, sp.stream_type ≠ rs2_stream.RS2_STREAM_DEPTH) ∨
          (∀ sp ∈ streams, sp.stream_type = rs2_stream.RS2_STREAM_DEPTH)))) ∧
    ((∀ sp ∈ streams, sp.stream_type ≠ rs2_stream.RS2_STREAM_ANY) →
      (∃ sp ∈ streams, sp.stream_type = rs2_stream.RS2_STREAM_DEPTH) →
      (∃ sp ∈ streams, sp.stream_type ≠ rs2_stream.RS2_STREAM_DEPTH) →
      ∃ t, find_stream_to_align streams = Except.ok t) ∧
    ((∀ sp ∈ streams, sp.stream_type ≠ rs2_stream.RS2_STREAM_DEPTH) →
      find_stream_to_align streams = Except.error "No Depth stream available") := by
  obtain ⟨c1, c2, c3, c4⟩ := find_stream_to_align_cases streams
  have nodepth : (¬ ∃ sp ∈ streams, sp.stream_type = rs2_stream.RS2_STREAM_DEPTH) ↔
      ∀ sp ∈ streams, sp.stream_type ≠ rs2_stream.RS2_STREAM_DEPTH := by
    simp
  have nocolor : (¬ ∃ sp ∈ streams, sp.stream_type = rs2_stream.RS2_STREAM_COLOR) ↔
      ∀ sp ∈ streams, sp.stream_type ≠ rs2_stream.RS2_STREAM_COLOR := by
    simp
  have hlast : (lastNonDepth streams).getD rs2_stream.RS2_STREAM_ANY = rs2_stream.RS2_STREAM_ANY ↔
      (lastNonDepth streams = none ∨ lastNonDepth streams = some rs2_stream.RS2_STREAM_ANY) := by
    cases hl : lastNonDepth streams with
    | none => simp
    | some t => simp
  have hexact : (∃ e, find_stream_to_align streams = Except.error e) ↔
      ((∀ sp ∈ streams, sp.stream_type ≠ rs2_stream.RS2_STREAM_DEPTH) ∨
        ((∀ sp ∈ streams, sp.stream_type ≠ rs2_stream.RS2_STREAM_COLOR) ∧
          (lastNonDepth streams = none ∨
            lastNonDepth streams = some rs2_stream.RS2_STREAM_ANY))) := by
    by_cases hd : ∃ sp ∈ streams, sp.stream_type = rs2_stream.RS2_STREAM_DEPTH
    · have hnd : ¬ ∀ sp ∈ streams, sp.stream_type ≠ rs2_stream.RS2_STREAM_DEPTH :=
        fun h => (nodepth.mpr h) hd
      by_cases hc : ∃ sp ∈ streams, sp.stream_type = rs2_stream.RS2_STREAM_COLOR
      · have hnc : ¬ ∀ sp ∈ streams, sp.stream_type ≠ rs2_stream.RS2_STREAM_COLOR :=
          fun h => (nocolor.mpr h) hc
        rw [c2 hd hc]
        constructor
        · rintro ⟨e, he⟩; cases he
        · rintro (h | ⟨h, -⟩)
          · exact absurd h hnd
          · exact absurd h hnc
      · by_cases hl : (lastNonDepth streams).getD rs2_stream.RS2_STREAM_ANY =
            rs2_stream.RS2_STREAM_ANY
        · rw [c3 hd hc hl]
          exact ⟨fun _ => Or.inr ⟨nocolor.mp hc, hlast.mp hl⟩, fun _ => ⟨_, rfl⟩⟩
        · rw [c4 hd hc hl]
          constructor
          · rintro ⟨e, he⟩; cases he
          · rintro (h | ⟨-, h⟩)
            · exact absurd h hnd
            · exact absurd (hlast.mpr h) hl
    · rw [c1 hd]
      exact ⟨fun _ => Or.inl (nodepth.mp hd), fun _ => ⟨_, rfl⟩⟩
  have noany : (∀ sp ∈ streams, sp.stream_type ≠ rs2_stream.RS2_STREAM_ANY) →
      ((∃ e, find_stream_to_align streams = Except.error e) ↔
        ((∀ sp ∈ streams, sp.stream_type ≠ rs2_stream.RS2_STREAM_DEPTH) ∨
          (∀ sp ∈ streams, sp.stream_type = rs2_stream.RS2_STREAM_DEPTH))) := by
    intro hany
    rw [hexact]
    constructor
    · rintro (h | ⟨-, h | h⟩)
      · exact Or.inl h
      · exact Or.inr ((lastNonDepth_eq_none streams).mp h)
      · obtain ⟨-, sp, hsp, ht⟩ := lastNonDepth_mem streams _ h
        exact absurd ht (hany sp hsp)
    · rintro (h | h)
      · exact Or.inl h
      · refine Or.inr ⟨fun sp hsp => ?_, Or.inl ((lastNonDepth_eq_none streams).mpr h)⟩
        rw [h sp hsp]
        decide
  refine ⟨hexact, noany, ?_, fun h => c1 (nodepth.mpr h)⟩
  intro hany hd hnd
  cases hres : find_stream_to_align streams with
  | ok t => exact ⟨t, rfl⟩
  | error e =>
    exfalso
    rcases (noany hany).mp ⟨e, hres⟩ with h | h
    · obtain ⟨sp, hsp, ht⟩ := hd
      exact h sp hsp ht
    · obtain ⟨sp, hsp, ht⟩ := hnd
      exact ht (h sp hsp)

/-- The list `[depth, infrared]` for C9: it holds no stream of type `RS2_STREAM_ANY`, a depth
stream and a non-depth stream, and `find_stream_to_align` returns a stream type. -/
theorem find_stream_to_align_fails_iff_witness :
    (∀ sp ∈ depth_and_infrared, sp.stream_type ≠ rs2_stream.RS2_STREAM_ANY) ∧
    (∃ sp ∈ depth_and_infrared, sp.stream_type = rs2_stream.RS2_STREAM_DEPTH) ∧
    (∃ sp ∈ depth_and_infrared, sp.stream_type ≠ rs2_stream.RS2_STREAM_DEPTH) ∧
    ∃ t, find_stream_to_align depth_and_infrared = Except.ok t := by
  have hany : ∀ sp ∈ depth_and_infrared, sp.stream_type ≠ rs2_stream.RS2_STREAM_ANY := by
    decide
  have hd : ∃ sp ∈ depth_and_infrared, sp.stream_type = rs2_stream.RS2_STREAM_DEPTH := by
    decide
  have hnd : ∃ sp ∈ depth_and_infrared, sp.stream_type ≠ rs2_stream.RS2_STREAM_DEPTH := by
    decide
  exact ⟨hany, hd, hnd, (find_stream_to_align_fails_iff depth_and_infrared).2.2.1 hany hd hnd⟩

/-! ## The frame loop -/

/-- Frames on which the solver succeeds are shown one after the other and the loop goes on. -/
theorem frame_loop_prefix (grabCut : Solver) (l rest : List FrameInput)
    (hl : ∀ f ∈ l, ∃ m, grabCut f.color_mat (seed_mask f.near f.far) = Except.ok m)
    (shown : List (Mat Vec3b)) :
    frame_loop grabCut (l ++ rest) shown =
        frame_loop grabCut rest (shown ++ frame_loop_skipping grabCut l) ∧
      (frame_loop_skipping grabCut l).length = l.length := by
  induction l generalizing shown with
  | nil => simp [frame_loop_skipping]
  | cons f t ih =>
    obtain ⟨m, hm⟩ := hl f (List.mem_cons_self f t)
    have ht : ∀ f' ∈ t, ∃ m, grabCut f'.color_mat (seed_mask f'.near f'.far) = Except.ok m :=
      fun f' hf' => hl f' (List.mem_cons_of_mem f hf')
    have hp : process_frame grabCut f = Except.ok (extract_foreground f.color_mat m) := by
      simp [process_frame, hm]
    obtain ⟨ih1, ih2⟩ := ih ht (shown ++ [extract_foreground f.color_mat m])
    constructor
    · simp only [List.cons_append, frame_loop, frame_loop_skipping, hp]
      show frame_loop grabCut (t ++ rest) (shown ++ [extract_foreground f.color_mat m]) = _
      rw [ih1, List.append_assoc]
      rfl
    · simp [frame_loop_skipping, hp, ih2]

/-- C10, as stated, fails: with a solver that fails on the first of two frames, `main` does not
show the second frame and returns `EXIT_FAILURE`, where a loop that skips the failed frame
shows the second frame and ends normally. -/
theorem solver_failure_counterexample :
    (remove_background_main sample_solver [far_frame, near_frame]).exit_status = EXIT_FAILURE ∧
    (remove_background_main sample_solver [far_frame, near_frame]).shown = [] ∧
    frame_loop_skipping sample_solver [far_frame, near_frame] = [⟨1, 1, [(1, 2, 3)]⟩] ∧
    ¬ ((remove_background_main sample_solver [far_frame, near_frame]).shown =
          frame_loop_skipping sample_solver [far_frame, near_frame] ∧
        (remove_background_main sample_solver [far_frame, near_frame]).exit_status =
          EXIT_SUCCESS) := by
  have hfail : (remove_background_main sample_solver [far_frame, near_frame]).exit_status =
      EXIT_FAILURE := rfl
  refine ⟨hfail, rfl, rfl, ?_⟩
  rintro ⟨-, h⟩
  rw [hfail] at h
  exact absurd h (by decide)

/-- C10, amended: when `grabCut` fails on a frame, the exception leaves the frame loop and
reaches the handler of `main`: the message is written to `std::cerr`, `main` returns
`EXIT_FAILURE`, the frames before the failing one have been shown and no later frame is
processed. -/
theorem solver_failure_terminates (grabCut : Solver) (before after : List FrameInput)
    (frame : FrameInput) (e : String)
    (hbefore : ∀ f ∈ before, ∃ m, grabCut f.color_mat (seed_mask f.near f.far) = Except.ok m)
    (hfail : grabCut frame.color_mat (seed_mask frame.near frame.far) = Except.error e) :
    (remove_background_main grabCut (before ++ frame :: after)).exit_status = EXIT_FAILURE ∧
    (remove_background_main grabCut (before ++ frame :: after)).cerr = [e] ∧
    (remove_background_main grabCut (before ++ frame :: after)).shown =
      (remove_background_main grabCut before).shown ∧
    (remove_background_main grabCut before).shown.length = before.length := by
  obtain ⟨h1, hlen⟩ := frame_loop_prefix grabCut before (frame :: after) hbefore []
  obtain ⟨h2, -⟩ := frame_loop_prefix grabCut before [] hbefore []
  have hp : process_frame grabCut frame = Except.error e := by
    simp [process_frame, hfail]
  rw [List.append_nil] at h2
  have hlen' : (remove_background_main grabCut before).shown.length = before.length := by
    simp only [remove_background_main, h2, frame_loop, List.nil_append]
    exact hlen
  refine ⟨?_, ?_, ?_, hlen'⟩
  · simp only [remove_background_main, h1, frame_loop, hp]
  · simp only [remove_background_main, h1, frame_loop, hp]
  · simp only [remove_background_main, h1, h2, frame_loop, hp]

/-- The two sample frames for C10 in the other order: the near frame is shown, then the
solver fails on the far frame and `main` returns `EXIT_FAILURE` with one image shown. -/
theorem solver_failure_terminates_witness :
    (remove_background_main sample_solver ([near_frame] ++ far_frame :: [near_frame])).exit_status
        = EXIT_FAILURE ∧
      (remove_background_main sample_solver ([near_frame] ++ far_frame :: [near_frame])).cerr =
        ["grabCut: no foreground samples"] ∧
      (remove_background_main sample_solver [near_frame]).shown.length = 1 := by
  have h := solver_failure_terminates sample_solver [near_frame] [near_frame] far_frame
    "grabCut: no foreground samples"
    (by
      intro f hf
      rw [List.mem_singleton] at hf
      subst hf
      exact ⟨_, rfl⟩)
    rfl
  exact ⟨h.1, h.2.1, h.2.2.2⟩

/-! ## Histogram index safety -/

/-- C11: for every 16-bit depth value `u`, the slot index `u >> 5` is below
`noOfSlots = 2048 = 65536 >> 5`.  Hence the counter access of the counting pass is inside an
array of `noOfSlots` counters (the counter is read and the increment is stored), the counter
array keeps its `noOfSlots` entries, and the band `max_pos` compared with `u >> 5` in the masking
pass is a valid slot index. -/
theorem slot_index_in_bounds (u : Nat) (hu : u < 65536) :
    (u >>> 5 < 2048 ∧ noOfSlots = 2048 ∧ noOfSlots = 65536 >>> 5 ∧
      u >>> slotSizeFactor < noOfSlots) ∧
    (∀ slot_counts : List Nat, slot_counts.length = noOfSlots →
      (∃ c, slot_counts[u >>> slotSizeFactor]? = some c ∧
        (incrementSlot slot_counts (u >>> slotSizeFactor))[u >>> slotSizeFactor]? =
          some ((c + 1) % 65536)) ∧
      (incrementSlot slot_counts (u >>> slotSizeFactor)).length = noOfSlots) ∧
    (∀ slot_counts : List Nat, (findMaxSlot slot_counts).2 < noOfSlots) := by
  have hslot : u >>> slotSizeFactor < noOfSlots := by
    simp only [noOfSlots, slotSizeFactor, Nat.shiftRight_eq_div_pow]
    omega
  refine ⟨⟨hslot, rfl, rfl, hslot⟩, ?_, fun slots => (findMaxSlot_inv slots).2.2.1⟩
  intro slots hlen
  have hin : u >>> slotSizeFactor < slots.length := by rw [hlen]; exact hslot
  refine ⟨⟨slots[u >>> slotSizeFactor], List.getElem?_eq_getElem hin, ?_⟩, ?_⟩
  · unfold incrementSlot
    rw [List.getElem?_set, if_pos rfl, if_pos hin, List.getD_eq_getElem?_getD,
      List.getElem?_eq_getElem hin]
    rfl
  · rw [incrementSlot_length, hlen]

/-- The largest depth value for C11: 65535 falls into the last slot, 2047. -/
theorem slot_index_in_bounds_witness :
    65535 < 65536 ∧ 65535 >>> slotSizeFactor = 2047 ∧ 65535 >>> slotSizeFactor < noOfSlots :=
  ⟨by decide, by decide, (slot_index_in_bounds 65535 (by decide)).1.2.2.2⟩

/-! ## The near-mask threshold -/

/-- The threshold step of the near mask on every pixel value: 255 above 180, 0 up to 180. -/
theorem near_threshold_value (v : Nat) :
    threshold_value v 180 255 ThresholdTypes.THRESH_BINARY = if 181 ≤ v then 255 else 0 := by
  show (if v > 180 then 255 else 0) = _
  by_cases h : v > 180
  · rw [if_pos h, if_pos (by omega)]
  · rw [if_neg h, if_neg (by omega)]

/-- C12 at the pixel value 180: the threshold step of the near mask
(`cv::threshold(depth, depth, 180, 255, THRESH_BINARY)`, the first statement of
`create_mask_from_depth`) turns a pixel of value exactly 180 into 0, not 255; the pixels kept
as 255 are those of value 181 and above. -/
theorem near_threshold_drops_180 :
    threshold_value 180 180 255 ThresholdTypes.THRESH_BINARY = 0 ∧
    (Mat.threshold ⟨1, 1, [180]⟩ 180 255 ThresholdTypes.THRESH_BINARY).data = [0] ∧
    (∀ (dilate erode : Mat Nat → Mat Nat) (gray : Mat Nat),
      near_mask dilate erode gray =
        erode (dilate (gray.threshold 180 255 ThresholdTypes.THRESH_BINARY))) ∧
    (∀ v : Nat, (v ≥ 181 → threshold_value v 180 255 ThresholdTypes.THRESH_BINARY = 255) ∧
      (v ≤ 180 → threshold_value v 180 255 ThresholdTypes.THRESH_BINARY = 0)) := by
  refine ⟨rfl, rfl, fun _ _ _ => rfl, fun v => ⟨fun h => ?_, fun h => ?_⟩⟩
  · rw [near_threshold_value, if_pos h]
  · rw [near_threshold_value, if_neg (by omega)]

/-! ## The stream returned by `find_stream_to_align` -/

/-- C13, as stated, fails: the list `[depth, any]` holds a depth stream, no colour stream and a
non-depth stream, and `find_stream_to_align` does not return the type of its last non-depth
stream: it fails. -/
theorem find_stream_to_align_result_counterexample :
    ¬ ((∃ sp ∈ depth_and_any, sp.stream_type = rs2_stream.RS2_STREAM_DEPTH) →
      (¬ ∃ sp ∈ depth_and_any, sp.stream_type = rs2_stream.RS2_STREAM_COLOR) →
      ∀ t, lastNonDepth depth_and_any = some t →
        find_stream_to_align depth_and_any = Except.ok t) := by
  intro h
  have hres := h (by decide) (by decide) rs2_stream.RS2_STREAM_ANY rfl
  have hfail : find_stream_to_align depth_and_any =
      Except.error "No stream found to align with Depth" := rfl
  rw [hfail] at hres
  cases hres

/-- C13, amended: for every stream list that holds a depth stream, if the list holds a colour
stream `find_stream_to_align` returns `RS2_STREAM_COLOR`; if it holds no colour stream and its
last non-depth stream has a type other than `RS2_STREAM_ANY`, it returns that type; if that type
is `RS2_STREAM_ANY` it fails.  A returned type is never `RS2_STREAM_DEPTH`. -/
theorem find_stream_to_align_result (streams : List stream_profile)
    (hd : ∃ sp ∈ streams, sp.stream_type = rs2_stream.RS2_STREAM_DEPTH) :
    ((∃ sp ∈ streams, sp.stream_type = rs2_stream.RS2_STREAM_COLOR) →
      find_stream_to_align streams = Except.ok rs2_stream.RS2_STREAM_COLOR) ∧
    ((¬ ∃ sp ∈ streams, sp.stream_type = rs2_stream.RS2_STREAM_COLOR) →
      ∀ t, lastNonDepth streams = some t → t ≠ rs2_stream.RS2_STREAM_ANY →
        find_stream_to_align streams = Except.ok t) ∧
    ((¬ ∃ sp ∈ streams, sp.stream_type = rs2_stream.RS2_STREAM_COLOR) →
      lastNonDepth streams = some rs2_stream.RS2_STREAM_ANY →
        find_stream_to_align streams = Except.error "No stream found to align with Depth") ∧
    (∀ t, find_stream_to_align streams = Except.ok t → t ≠ rs2_stream.RS2_STREAM_DEPTH) := by
  obtain ⟨-, c2, c3, c4⟩ := find_stream_to_align_cases streams
  refine ⟨c2 hd, ?_, ?_, ?_⟩
  · intro hc t hl ht
    have := c4 hd hc (by rw [hl]; exact ht)
    rw [hl] at this
    exact this
  · intro hc hl
    exact c3 hd hc (by rw [hl]; rfl)
  · intro t hres
    by_cases hc : ∃ sp ∈ streams, sp.stream_type = rs2_stream.RS2_STREAM_COLOR
    · rw [c2 hd hc] at hres
      cases hres
      decide
    · by_cases hl : (lastNonDepth streams).getD rs2_stream.RS2_STREAM_ANY =
          rs2_stream.RS2_STREAM_ANY
      · rw [c3 hd hc hl] at hres
        cases hres
      · rw [c4 hd hc hl] at hres
        cases hl' : lastNonDepth streams with
        | none =>
          rw [hl'] at hres
          cases hres
          decide
        | some t' =>
          rw [hl'] at hres
          cases hres
          exact (lastNonDepth_mem streams _ hl').1

/-- Two lists for C13: `[depth, color]` returns `RS2_STREAM_COLOR`, and `[depth, infrared]`,
without a colour stream, returns the type of its last non-depth stream, `RS2_STREAM_INFRARED`. -/
theorem find_stream_to_align_result_witness :
    (∃ sp ∈ depth_and_color, sp.stream_type = rs2_stream.RS2_STREAM_DEPTH) ∧
    find_stream_to_align depth_and_color = Except.ok rs2_stream.RS2_STREAM_COLOR ∧
    (∃ sp ∈ depth_and_infrared, sp.stream_type = rs2_stream.RS2_STREAM_DEPTH) ∧
    find_stream_to_align depth_and_infrared = Except.ok rs2_stream.RS2_STREAM_INFRARED := by
  have hd1 : ∃ sp ∈ depth_and_color, sp.stream_type = rs2_stream.RS2_STREAM_DEPTH := by decide
  have hd2 : ∃ sp ∈ depth_and_infrared, sp.stream_type = rs2_stream.RS2_STREAM_DEPTH := by
    decide
  exact ⟨hd1, (find_stream_to_align_result depth_and_color hd1).1 (by decide), hd2,
    (find_stream_to_align_result depth_and_infrared hd2).2.1 (by decide)
      rs2_stream.RS2_STREAM_INFRARED rfl (by decide)⟩

/-! ## `profile_changed` -/

/-- The search `std::find_if` of `profile_changed` ends at `std::end(current)` exactly when no
profile of `current` has the unique id of `sp`. -/
theorem find_if_not_found (current : List stream_profile) (sp : stream_profile) :
    (current.find? (fun current_sp => decide (sp.unique_id = current_sp.unique_id))).isNone
        = true ↔ ∀ c ∈ current, c.unique_id ≠ sp.unique_id := by
  rw [Option.isNone_iff_eq_none, List.find?_eq_none]
  constructor
  · intro h c hc heq
    exact h c hc (by simp [heq])
  · intro h c hc hdec
    exact h c hc (of_decide_eq_true hdec).symm

theorem profile_changed_iff (current prev : List stream_profile) :
    profile_changed current prev = true ↔
      ∃ sp ∈ prev, ∀ c ∈ current, c.unique_id ≠ sp.unique_id := by
  induction prev with
  | nil => simp [profile_changed]
  | cons sp rest ih =>
    unfold profile_changed
    by_cases h : (current.find? (fun current_sp =>
        decide (sp.unique_id = current_sp.unique_id))).isNone = true
    · rw [if_pos h]
      exact ⟨fun _ => ⟨sp, List.mem_cons_self sp rest, (find_if_not_found current sp).mp h⟩,
        fun _ => rfl⟩
    · rw [if_neg h, ih]
      constructor
      · rintro ⟨sp', hsp', hall⟩
        exact ⟨sp', List.mem_cons_of_mem sp hsp', hall⟩
      · rintro ⟨sp', hsp', hall⟩
        rcases List.mem_cons.mp hsp' with heq | hmem
        · subst heq
          exact absurd ((find_if_not_found current sp').mpr hall) h
        · exact ⟨sp', hmem, hall⟩

/-- C14: `profile_changed(current, prev)` is `true` if and only if some profile of `prev` has a
unique id that no profile of `current` has.  So `profile_changed(p, p)` is `false`,
`profile_changed(current, [])` is `false`, and a `false` result stays `false` when `current` is
replaced by a list that contains all of its profiles. -/
theorem profile_changed_spec (current prev : List stream_profile) :
    (profile_changed current prev = true ↔
      ∃ sp ∈ prev, ∀ c ∈ current, c.unique_id ≠ sp.unique_id) ∧
    profile_changed prev prev = false ∧
    profile_changed current [] = false ∧
    (∀ larger : List stream_profile, current ⊆ larger → profile_changed current prev = false →
      profile_changed larger prev = false) ∧
    (∀ added : List stream_profile, profile_changed current prev = false →
      profile_changed (current ++ added) prev = false) := by
  have mono : ∀ larger : List stream_profile, current ⊆ larger →
      profile_changed current prev = false → profile_changed larger prev = false := by
    intro larger hsub hfalse
    cases hres : profile_changed larger prev with
    | false => rfl
    | true =>
      exfalso
      obtain ⟨sp, hsp, hall⟩ := (profile_changed_iff larger prev).mp hres
      have : profile_changed current prev = true :=
        (profile_changed_iff current prev).mpr ⟨sp, hsp, fun c hc => hall c (hsub hc)⟩
      rw [hfalse] at this
      cases this
  refine ⟨profile_changed_iff current prev, ?_, rfl, mono, ?_⟩
  · cases hres : profile_changed prev prev with
    | false => rfl
    | true =>
      exfalso
      obtain ⟨sp, hsp, hall⟩ := (profile_changed_iff prev prev).mp hres
      exact hall sp hsp rfl
  · intro added hfalse
    exact mono (current ++ added) (List.subset_append_left current added) hfalse

/-- Profile lists for C14: with `prev = [depth, infrared]` (ids 0, 1) and `current = [depth]`
the id 1 is missing and the result is `true`; with `current = prev = [depth, color]` the result
is `false` and stays `false` when a profile is added to `current`. -/
theorem profile_changed_spec_witness :
    profile_changed [⟨rs2_stream.RS2_STREAM_DEPTH, 0⟩] depth_and_infrared = true ∧
    profile_changed depth_and_color depth_and_color = false ∧
    profile_changed (depth_and_color ++ [⟨rs2_stream.RS2_STREAM_INFRARED, 2⟩]) depth_and_color
      = false := by
  have h1 := (profile_changed_spec [⟨rs2_stream.RS2_STREAM_DEPTH, 0⟩] depth_and_infrared).1
  have h2 := profile_changed_spec depth_and_color depth_and_color
  refine ⟨h1.mpr ⟨⟨rs2_stream.RS2_STREAM_INFRARED, 1⟩, by simp [depth_and_infrared], ?_⟩,
    h2.2.1, h2.2.2.2.2 _ h2.2.1⟩
  intro c hc
  rw [List.mem_singleton] at hc
  subst hc
  decide

end RealSenseOpenCV
